import Mathlib

/-!
Shallow embedding of the analytics pipeline in `process_data.py`
(AI-Powered-Insights).  Floating-point values are idealised as exact
rationals; a float NaN is modelled as `Option.none`.  Values obtained by
a square root (standard deviations, Pearson r, Cramér's V) are stored as
their squares, since the square root of a rational is not rational; the
accompanying doc comments record this representation choice.
-/

namespace PD

/-- Python `int()` truncation of a float towards zero. -/
def pyInt (q : ℚ) : ℤ := if q < 0 then -(Int.floor (-q)) else Int.floor q

/-- numpy / Python banker's rounding (round half to even) of a rational. -/
def roundHE (q : ℚ) : ℤ :=
  let f := Int.floor q
  let r := q - (f : ℚ)
  if r < 1/2 then f
  else if 1/2 < r then f + 1
  else if f % 2 = 0 then f else f + 1

/-- A cell of the data frame: pandas object columns hold strings, numeric
columns hold (idealised) rationals. -/
inductive Cell
  | num (q : ℚ)
  | str (s : String)
deriving DecidableEq

/-- Rendering of a cell by Python `str`, as used in f-strings.  Integral
numerics print like Python ints; the non-integral case is not exercised by
the concrete inputs in this development. -/
def cellToString (c : Cell) : String :=
  match c with
  | .num q => if q.den = 1 then toString q.num else toString q.num ++ "/" ++ toString q.den
  | .str s => s

/-- A data-frame column: its name and its typed data. -/
inductive ColData
  | nums (vals : List ℚ)
  | strs (vals : List String)
deriving DecidableEq

structure Column where
  name : String
  data : ColData
deriving DecidableEq

/-- A pandas DataFrame, column-major. -/
abbrev DF := List Column

def colNames (df : DF) : List String := df.map (·.name)

def getColData (df : DF) (n : String) : Option ColData :=
  (df.find? (·.name = n)).map (·.data)

def ColData.cells : ColData → List Cell
  | .nums l => l.map .num
  | .strs l => l.map .str

def ColData.length : ColData → ℕ
  | .nums l => l.length
  | .strs l => l.length

def getCells (df : DF) (n : String) : Option (List Cell) :=
  (getColData df n).map ColData.cells

/-- String values of a column, when it is an object column. -/
def getStrs (df : DF) (n : String) : Option (List String) :=
  match getColData df n with
  | some (.strs l) => some l
  | _ => none

/-- pandas `df.empty` (no rows; all columns share one length). -/
def dfEmpty (df : DF) : Prop :=
  match df with
  | [] => True
  | c :: _ => c.data.length = 0

instance : DecidablePred dfEmpty := by
  intro df
  unfold dfEmpty
  cases df <;> infer_instance


end PD

namespace PD

/-- Stable insertion step: `before y x = true` means the already placed
element `y` must stay ahead of the incoming `x`. -/
def insertBy (before : α → α → Bool) (x : α) : List α → List α
  | [] => [x]
  | y :: ys => if before y x then y :: insertBy before x ys else x :: y :: ys

/-- Stable insertion sort (models sorted order of pandas group keys and the
stable descending sorts; pandas `sort_values`' tie order on its default
quicksort is unspecified, we fix the stable order). -/
def sortBy (before : α → α → Bool) (l : List α) : List α :=
  l.foldr (insertBy before) []

/-- Ascending sort of rationals (used for quantiles and medians). -/
def sortQ (l : List ℚ) : List ℚ := sortBy (fun y x => decide (y < x)) l

/-- Descending stable sort by a numeric weight (Python
`sorted(key=..., reverse=True)` and `value_counts()` ordering). -/
def sortDescBy (w : α → ℕ) (l : List α) : List α :=
  sortBy (fun y x => decide (w x < w y)) l

/-- Structural engine of `firstDedup` (the fuel keeps the recursion
kernel-reducible; any fuel at least the list length gives the same
result). -/
def firstDedupAux [DecidableEq α] : ℕ → List α → List α
  | 0, _ => []
  | _, [] => []
  | fuel + 1, a :: l => a :: firstDedupAux fuel (l.filter (fun b => !(b = a)))

/-- Distinct values of a list in first-encounter order. -/
def firstDedup [DecidableEq α] (l : List α) : List α := firstDedupAux l.length l

/-- pandas `value_counts()`: counts of distinct values, sorted by count
descending (ties kept in first-encounter order). -/
def valueCounts [DecidableEq α] (l : List α) : List (α × ℕ) :=
  sortDescBy Prod.snd ((firstDedup l).map (fun a => (a, l.count a)))

/-- Map a fallible function over a list, failing when any element fails. -/
def mapMO (f : α → Option β) : List α → Option (List β)
  | [] => some []
  | a :: l => do
    let b ← f a
    let r ← mapMO f l
    pure (b :: r)

/-- Ordering on cells: numeric before numeric by value, strings
lexicographically (a pandas column is homogeneous, so the mixed cases are
inert). -/
def cellBefore (a b : Cell) : Bool :=
  match a, b with
  | .num x, .num y => decide (x < y)
  | .str x, .str y => decide (x < y)
  | .num _, .str _ => true
  | .str _, .num _ => false

/-- Sorted distinct values, the key order of a pandas `groupby`. -/
def sortedKeys [DecidableEq α] (before : α → α → Bool) (l : List α) : List α :=
  sortBy before (firstDedup l)

def sortedCells (l : List Cell) : List Cell := sortedKeys cellBefore l

def listMaxN (l : List ℕ) : Option ℕ :=
  match l with
  | [] => none
  | a :: t => some (t.foldl max a)

def listMinQ (l : List ℚ) : Option ℚ :=
  match l with
  | [] => none
  | a :: t => some (t.foldl min a)

def listMaxQ (l : List ℚ) : Option ℚ :=
  match l with
  | [] => none
  | a :: t => some (t.foldl max a)

/-- Index of the first maximal element (pandas `idxmax` / `argmax`). -/
def firstArgmax (l : List ℚ) : ℕ :=
  match l with
  | [] => 0
  | a :: t =>
    (t.foldl (fun (st : ℕ × ℕ × ℚ) x =>
      let (i, bi, bv) := st
      if bv < x then (i + 1, i + 1, x) else (i + 1, bi, bv)) (0, 0, a)).2.1

/-- First key attaining the maximal value (Python `max(d.items(), key=...)`
returns the first maximum in iteration order). -/
def firstMaxKey (l : List (α × ℕ)) (dflt : α) : α :=
  match l with
  | [] => dflt
  | p :: t => (t.foldl (fun best q => if best.2 < q.2 then q else best) p).1

def meanQ (l : List ℚ) : ℚ := l.sum / l.length

/-- pandas median: average of the middle elements of the sorted column. -/
def medianQ (l : List ℚ) : ℚ :=
  let s := sortQ l
  let n := s.length
  if n % 2 = 1 then s.getD (n / 2) 0
  else (s.getD (n / 2 - 1) 0 + s.getD (n / 2) 0) / 2

/-- Sample variance (pandas `std()` default, `ddof = 1`), the square of the
standard deviation the source stores. -/
def sampleVar (l : List ℚ) : ℚ :=
  let m := meanQ l
  (l.map (fun x => (x - m) * (x - m))).sum / ((l.length : ℚ) - 1)

end PD

namespace PD

/- Calendar arithmetic (proleptic Gregorian).  Day numbers count days since
0000-03-01, which was a Wednesday. -/

def isLeap (y : ℕ) : Bool := (y % 4 = 0 && y % 100 ≠ 0) || y % 400 = 0

def daysInMonth (y m : ℕ) : ℕ :=
  if m = 2 then (if isLeap y then 29 else 28)
  else if m = 4 ∨ m = 6 ∨ m = 9 ∨ m = 11 then 30 else 31

/-- Day number of a valid civil date (`y ≥ 1`). -/
def toDayNumber (y m d : ℕ) : ℕ :=
  let y' := if m ≤ 2 then y - 1 else y
  let m' := if m ≤ 2 then m + 12 else m
  365 * y' + y' / 4 - y' / 100 + y' / 400 + (153 * (m' - 3) + 2) / 5 + d - 1

/-- Civil date `(y, m, d)` of a day number (inverse of `toDayNumber`). -/
def civilFromDays (z : ℕ) : ℕ × ℕ × ℕ :=
  let era := z / 146097
  let doe := z % 146097
  let yoe := (doe - doe / 1460 + doe / 36524 - doe / 146096) / 365
  let y := yoe + era * 400
  let doy := doe - (365 * yoe + yoe / 4 - yoe / 100)
  let mp := (5 * doy + 2) / 153
  let d := doy - (153 * mp + 2) / 5 + 1
  let m := if mp < 10 then mp + 3 else mp - 9
  (if m ≤ 2 then y + 1 else y, m, d)

def pad2 (n : ℕ) : String := if n < 10 then "0" ++ toString n else toString n

def pad4 (n : ℕ) : String :=
  if n < 10 then "000" ++ toString n
  else if n < 100 then "00" ++ toString n
  else if n < 1000 then "0" ++ toString n
  else toString n

/-- `strftime('%Y-%m-%d')` of a day number. -/
def isoDate (z : ℕ) : String :=
  let c := civilFromDays z
  pad4 c.1 ++ "-" ++ pad2 c.2.1 ++ "-" ++ pad2 c.2.2

/-- `dt.day_name()`: day number 0 is a Wednesday. -/
def dayName (z : ℕ) : String :=
  (["Wednesday", "Thursday", "Friday", "Saturday", "Sunday", "Monday",
    "Tuesday"]).getD (z % 7) ""

def monthName (m : ℕ) : String :=
  (["January", "February", "March", "April", "May", "June", "July",
    "August", "September", "October", "November", "December"]).getD (m - 1) ""

/-- A timestamp in minutes since day number 0. -/
abbrev Ts := ℕ

def Ts.day (t : Ts) : ℕ := t / 1440
def Ts.hour (t : Ts) : ℕ := t % 1440 / 60

def digitVal (c : Char) : Option ℕ :=
  if c.isDigit then some (c.toNat - 48) else none

/-- `pd.to_datetime(..., format='%d-%m-%Y %H:%M', errors='coerce')` on one
value: strict zero-padded `DD-MM-YYYY HH:MM` with a calendar-valid date
(pandas' nanosecond range bound is not modelled). -/
def parseTs (s : String) : Option Ts :=
  match s.data with
  | [d1, d2, '-', m1, m2, '-', y1, y2, y3, y4, ' ', h1, h2, ':', mi1, mi2] => do
    let dd ← do
      let a ← digitVal d1; let b ← digitVal d2; pure (10 * a + b)
    let mm ← do
      let a ← digitVal m1; let b ← digitVal m2; pure (10 * a + b)
    let yy ← do
      let a ← digitVal y1; let b ← digitVal y2; let c ← digitVal y3
      let d ← digitVal y4; pure (1000 * a + 100 * b + 10 * c + d)
    let hh ← do
      let a ← digitVal h1; let b ← digitVal h2; pure (10 * a + b)
    let mi ← do
      let a ← digitVal mi1; let b ← digitVal mi2; pure (10 * a + b)
    if 1 ≤ mm ∧ mm ≤ 12 ∧ 1 ≤ dd ∧ dd ≤ daysInMonth yy mm ∧ 1 ≤ yy ∧
        hh ≤ 23 ∧ mi ≤ 59 then
      some (toDayNumber yy mm dd * 1440 + hh * 60 + mi)
    else none
  | _ => none

end PD

namespace PD

/- Decimal formatting of Python f-strings.  Python rounds a float half to
even; we idealise over exact rationals.  For values that carry a square
root we detect the (measure-zero) exact ties and otherwise round the
irrational value to the nearest integer. -/

/-- Round half to even of `scale · √s` for `s ≥ 0`, as a natural number. -/
def natSqrtRound (scale : ℕ) (s : ℚ) : ℕ :=
  let a := s.num.toNat
  let b := s.den
  let M := scale ^ 2 * a * b
  let r := Nat.sqrt M
  if r * r = M then (roundHE ((r : ℚ) / (b : ℚ))).toNat
  else (Nat.sqrt (4 * M) + b) / (2 * b)

/-- Round half to even of `a + c · √s` for `s ≥ 0`. -/
def roundAddSqrtHE (a : ℚ) (c : ℕ) (s : ℚ) : ℤ :=
  let t := (c ^ 2 : ℚ) * s
  let tn := t.num.toNat
  let td := t.den
  let N := tn * td
  let p := a.num
  let q := a.den
  let D := q * td
  let qN := q ^ 2 * N
  let rN := Nat.sqrt qN
  if rN * rN = qN then roundHE (((p * td + rN : ℤ) : ℚ) / (D : ℚ))
  else Int.fdiv (2 * p * td + D + (Nat.sqrt (4 * qN) : ℤ)) (2 * D)

def fmtScaled2 (neg : Bool) (n : ℕ) : String :=
  (if neg then "-" else "") ++ toString (n / 100) ++ "." ++ pad2 (n % 100)

/-- Python `f"{q:.2f}"`. -/
def fmt2 (q : ℚ) : String := fmtScaled2 (decide (q < 0)) ((roundHE (|q| * 100)).toNat)

/-- Python `f"{q:.1f}"`. -/
def fmt1 (q : ℚ) : String :=
  let n := (roundHE (|q| * 10)).toNat
  (if q < 0 then "-" else "") ++ toString (n / 10) ++ "." ++ toString (n % 10)

/-- `f"{x:.2f}"` where the float `x` may be NaN (modelled `none`). -/
def fmtOpt2 (o : Option ℚ) : String :=
  match o with
  | none => "nan"
  | some q => fmt2 q

/-- `f"{std:.2f}"` where the source's float is the square root of the stored
rational. -/
def fmtStd2 (o : Option ℚ) : String :=
  match o with
  | none => "nan"
  | some s => fmtScaled2 false (natSqrtRound 100 s)

/-- A Pearson correlation value `r = sgn · √r2`, stored by its sign and its
square (exact in ℚ; the source stores the float `r`). -/
structure PCell where
  sgn : ℤ
  r2 : ℚ
deriving DecidableEq

/-- `f"{r:.2f}"` for a Pearson cell (NaN prints as `nan`). -/
def fmtPearson2 (o : Option PCell) : String :=
  match o with
  | none => "nan"
  | some p => (if p.sgn < 0 then "-" else "") ++ fmtScaled2 false (natSqrtRound 100 p.r2)

/-- `f"{mean + 2·std:.1f}"` for the oversized-transaction threshold, where
`std = √v`; NaN (no variance) prints as `nan`, and the threshold is
nonnegative on every reachable input. -/
def fmtThresh1 (m : ℚ) (v : Option ℚ) : String :=
  match v with
  | none => "nan"
  | some var =>
    let n := (roundAddSqrtHE (10 * m) 20 var).toNat
    toString (n / 10) ++ "." ++ toString (n % 10)

end PD

namespace PD

/- `pd.qcut(values, q=5, labels=...)`: bin edges are the 0,20,…,100%
quantiles (linear interpolation); pandas raises `Bin edges must be unique`
when the edges contain duplicates (`duplicates='raise'` default), modelled
as `none`.  Bins are right-closed and the lowest edge is included. -/

/-- Linear-interpolation quantile of a sorted nonempty list. -/
def quantileLin (s : List ℚ) (q : ℚ) : ℚ :=
  let h := q * ((s.length : ℚ) - 1)
  let i := (Int.floor h).toNat
  let lo := s.getD i 0
  let hi := s.getD (i + 1) lo
  lo + (h - (Int.floor h : ℚ)) * (hi - lo)

def chainLtB : List ℚ → Bool
  | [] => true
  | [_] => true
  | a :: b :: t => decide (a < b) && chainLtB (b :: t)

/-- Bin index of a value among 6 edges: first right edge at or above it. -/
def binIdx (edges : List ℚ) (x : ℚ) : ℕ :=
  ((List.range 5).find? (fun i => decide (x ≤ edges.getD (i + 1) 0))).getD 4

def qcut5 (vals : List ℚ) (labels : List ℕ) : Option (List ℕ) :=
  match vals with
  | [] => none
  | _ :: _ =>
    let s := sortQ vals
    let edges := (List.range 6).map (fun k => quantileLin s ((k : ℚ) / 5))
    if chainLtB edges then
      some (vals.map (fun x => labels.getD (binIdx edges x) 0))
    else none

end PD

namespace PD

/-- Per-column descriptive statistics (`generate_insights`, numeric loop).
The source stores the float standard deviation; `std_sq` holds its exact
square (pandas `std()`, sample convention `ddof = 1`; on fewer than two
rows pandas yields NaN, modelled `none`). -/
structure NumericStats where
  mean : Option ℚ
  median : Option ℚ
  std_sq : Option ℚ
  min : Option ℚ
  max : Option ℚ
deriving DecidableEq

def numericColStats (l : List ℚ) : NumericStats :=
  match l with
  | [] => ⟨none, none, none, none, none⟩
  | _ :: _ =>
    { mean := some (meanQ l)
      median := some (medianQ l)
      std_sq := if 2 ≤ l.length then some (sampleVar l) else none
      min := listMinQ l
      max := listMaxQ l }

/-- Per-column categorical statistics (`generate_insights`, object loop). -/
structure CatStats where
  unique_values : ℕ
  most_common : String
deriving DecidableEq

/-- `value_counts().index[0]`: raises on an empty column (`none`). -/
def mostCommon (l : List String) : Option String :=
  ((valueCounts l).head?).map Prod.fst

/-- pandas `df[numeric].corr()` entry, exact: `r = cov/√(Sxx·Syy)`, stored
as sign and square; a zero denominator is pandas' NaN (`none`). -/
def pearson (xs ys : List ℚ) : Option PCell :=
  let ps := xs.zip ys
  let mx := meanQ (ps.map Prod.fst)
  let my := meanQ (ps.map Prod.snd)
  let cov := (ps.map (fun p => (p.1 - mx) * (p.2 - my))).sum
  let sxx := (ps.map (fun p => (p.1 - mx) * (p.1 - mx))).sum
  let syy := (ps.map (fun p => (p.2 - my) * (p.2 - my))).sum
  if sxx * syy = 0 then none
  else some ⟨if cov < 0 then -1 else if 0 < cov then 1 else 0, cov * cov / (sxx * syy)⟩

/-- The numeric columns of the frame, in source order. -/
def numericCols (df : DF) : List (String × List ℚ) :=
  df.filterMap (fun c =>
    match c.data with
    | .nums l => some (c.name, l)
    | .strs _ => none)

/-- The object (categorical) columns of the frame, in source order. -/
def catColsData (df : DF) : List (String × List String) :=
  df.filterMap (fun c =>
    match c.data with
    | .strs l => some (c.name, l)
    | .nums _ => none)

def catCols (df : DF) : List String := (catColsData df).map Prod.fst

/-- `df[numeric_cols].corr().to_dict()`. -/
def pearsonMatrix (ncols : List (String × List ℚ)) :
    List (String × List (String × Option PCell)) :=
  ncols.map (fun c1 => (c1.1, ncols.map (fun c2 => (c2.1, pearson c1.2 c2.2))))

end PD

namespace PD

/-- The `date_time` column parsed per row (`errors='coerce'`; a numeric
column yields all NaT); `none` when the column is absent. -/
def parsedDateTimes (df : DF) : Option (List (Option Ts)) :=
  match getColData df "date_time" with
  | none => none
  | some (.strs l) => some (l.map parseTs)
  | some (.nums l) => some (l.map (fun _ => none))

def natBefore (a b : ℕ) : Bool := decide (a < b)
def strBefore (a b : String) : Bool := decide (a < b)

/-- `groupby(key)[col].nunique()`: distinct values per sorted group key. -/
def groupNunique [DecidableEq K] (before : K → K → Bool)
    (pairs : List (K × Cell)) : List (K × ℕ) :=
  (sortedKeys before (pairs.map Prod.fst)).map
    (fun k => (k, (firstDedup ((pairs.filter (fun p => p.1 = k)).map Prod.snd)).length))

inductive TPVal
  | natCounts (l : List (ℕ × ℕ))
  | strCounts (l : List (String × ℕ))
deriving DecidableEq

/-- `analyze_time_patterns`: hour/weekday/month buckets of distinct
transactions; rows whose timestamp fails to parse are dropped from the
bucket groupings (NaN group keys); a missing `date_time` column, an
all-NaT parse, or a missing `Transaction` column (KeyError caught by the
function's handler before anything is accumulated) give the empty result. -/
def analyze_time_patterns (df : DF) : List (String × TPVal) :=
  match parsedDateTimes df with
  | none => []
  | some parsed =>
    if parsed.all (·.isNone) then []
    else
      match getCells df "Transaction" with
      | none => []
      | some txns =>
        let rows := parsed.zip txns
        let prows := rows.filterMap (fun p => p.1.map (fun t => (t, p.2)))
        let hourly := groupNunique natBefore (prows.map (fun p => (Ts.hour p.1, p.2)))
        let daily := groupNunique strBefore (prows.map (fun p => (dayName (Ts.day p.1), p.2)))
        let monthly := groupNunique strBefore
          (prows.map (fun p => (monthName (civilFromDays (Ts.day p.1)).2.1, p.2)))
        let ww :=
          match getCells df "weekday_weekend" with
          | none => []
          | some w =>
            [("weekday_weekend", TPVal.strCounts
              ((groupNunique cellBefore (w.zip txns)).map (fun p => (cellToString p.1, p.2))))]
        let pday :=
          match getCells df "period_day" with
          | none => []
          | some w =>
            [("period_day", TPVal.strCounts
              ((groupNunique cellBefore (w.zip txns)).map (fun p => (cellToString p.1, p.2))))]
        [("hourly", TPVal.natCounts hourly), ("daily", TPVal.strCounts daily),
         ("monthly", TPVal.strCounts monthly)] ++ ww ++ pday

/-- Daily counts of distinct transactions (`groupby(datetime.dt.date)
['Transaction'].nunique()`), keyed by day number, ascending. -/
def dailySales (df : DF) : List (ℕ × ℕ) :=
  match parsedDateTimes df, getCells df "Transaction" with
  | some parsed, some txns =>
    groupNunique natBefore
      ((parsed.zip txns).filterMap (fun p => p.1.map (fun t => (Ts.day t, p.2))))
  | _, _ => []

structure ForecastRecord where
  dates : List String
  predicted : List ℤ
  lower_bound : List ℤ
  upper_bound : List ℤ
  trend : ℚ
  seasonal_periods : String
  peak_forecast_day : String
deriving DecidableEq

/-- One future row of the Prophet forecast frame (point estimate and
uncertainty band), an output of the external library. -/
structure ProphetPred where
  yhat : ℚ
  yhat_lower : ℚ
  yhat_upper : ℚ
deriving DecidableEq

/-- Outcomes of the two external forecasting libraries: `none` models an
unavailable library or a raising fit, `some` the forecast it returns
(Prophet: the rows dated after the last history date; statsmodels: the
values of `model.forecast(30)`). -/
structure ExternalForecasters where
  prophet : Option (List ProphetPred)
  smoothing : Option (List ℚ)

/-- Tier 1 (Prophet).  `peak_day_idx = future_forecast['yhat'].idxmax()` is
a row label of the full forecast frame (history length + offset within the
future window) which the source then uses positionally via `.iloc` on the
future window alone; an out-of-range label raises IndexError (caught, so
control falls to tier 2), an in-range one selects a shifted date. -/
def tier1 (lastDay histLen : ℕ) (rows : List ProphetPred) : Option ForecastRecord :=
  match rows with
  | [] => none
  | r0 :: _ =>
    let yhats := rows.map (·.yhat)
    let firstPred := r0.yhat
    let lastPred := yhats.getD (yhats.length - 1) 0
    let trend := if 0 < firstPred then (lastPred - firstPred) / firstPred * 100 else 0
    let peakLabel := histLen + firstArgmax yhats
    if peakLabel < rows.length then
      some { dates := (List.range rows.length).map (fun i => isoDate (lastDay + 1 + i))
             predicted := yhats.map roundHE
             lower_bound := rows.map (fun r => roundHE r.yhat_lower)
             upper_bound := rows.map (fun r => roundHE r.yhat_upper)
             trend := trend
             seasonal_periods := "weekly, yearly"
             peak_forecast_day := isoDate (lastDay + 1 + peakLabel) }
    else none

/-- Tier 2 (exponential smoothing).  Series element access is modelled
positionally; the float literals 0.8 and 1.2 are idealised as 4/5 and 6/5;
`round()` is numpy's round half to even. -/
def tier2 (lastDay : ℕ) (preds : List ℚ) : Option ForecastRecord :=
  match preds with
  | [] => none
  | p0 :: _ =>
    let lastPred := preds.getD (preds.length - 1) 0
    let trend := if 0 < p0 then (lastPred - p0) / p0 * 100 else 0
    let jmax := firstArgmax preds
    if jmax < 30 then
      some { dates := (List.range 30).map (fun i => isoDate (lastDay + 1 + i))
             predicted := preds.map roundHE
             lower_bound := preds.map (fun p => roundHE (p * (4/5)))
             upper_bound := preds.map (fun p => roundHE (p * (6/5)))
             trend := trend
             seasonal_periods := "weekly"
             peak_forecast_day := isoDate (lastDay + 1 + jmax) }
    else none

/-- Tier 3 (trailing moving average, flat forecast; `int()` truncation). -/
def tier3 (daily : List (ℕ × ℕ)) : Option ForecastRecord :=
  match daily with
  | [] => none
  | _ :: _ =>
    let w := min 7 daily.length
    let counts := daily.map Prod.snd
    let ma : ℚ := (((counts.drop (counts.length - w)).sum : ℕ) : ℚ) / (w : ℚ)
    let lastDay := (daily.getD (daily.length - 1) (0, 0)).1
    let dates := (List.range 30).map (fun i => isoDate (lastDay + 1 + i))
    some { dates := dates
           predicted := List.replicate 30 (pyInt ma)
           lower_bound := List.replicate 30 (pyInt (ma * (4/5)))
           upper_bound := List.replicate 30 (pyInt (ma * (6/5)))
           trend := 0
           seasonal_periods := "not detected"
           peak_forecast_day := dates.getD 0 "" }

/-- `forecast_sales`: three-tier fallback over the daily series; the empty
result (`none`) when the required columns are missing or nothing parses. -/
def forecast_sales (df : DF) (ext : ExternalForecasters) : Option ForecastRecord :=
  if "date_time" ∈ colNames df ∧ "Transaction" ∈ colNames df then
    match dailySales df with
    | [] => none
    | d0 :: drest =>
      let daily := d0 :: drest
      let lastDay := (daily.getD (daily.length - 1) (0, 0)).1
      match ext.prophet.bind (tier1 lastDay daily.length) with
      | some r => some r
      | none =>
        match ext.smoothing.bind (tier2 lastDay) with
        | some r => some r
        | none => tier3 daily
  else none

end PD

namespace PD

inductive Anom
  | large (description : String) (transactions : List (Cell × ℕ))
  | rare (description : String) (items : List Cell)
  | hours (description : String) (counts : List (String × ℕ))
deriving DecidableEq

/-- Row count per transaction (`groupby('Transaction').size()`), keys
sorted. -/
def transactionSizes (df : DF) : List (Cell × ℕ) :=
  match getCells df "Transaction" with
  | none => []
  | some txns => (sortedCells txns).map (fun k => (k, txns.count k))

/-- The float comparison `size > mean + 2·std` written on squares
(`std = √v`, `v ≥ 0`): equivalent to `size − mean > 0 ∧ (size − mean)² > 4·v`. -/
def overThreshold (x m v : ℚ) : Bool :=
  decide (m < x) && decide (4 * v < (x - m) * (x - m))

/-- The sample variance of the transaction sizes (NaN, i.e. `none`, with
fewer than two transactions). -/
def sizeVar (df : DF) : Option ℚ :=
  let vals : List ℚ := (transactionSizes df).map (fun p => ((p.2 : ℕ) : ℚ))
  if 2 ≤ vals.length then some (sampleVar vals) else none

/-- The transactions whose size exceeds `mean + 2·std` (empty when the std
is NaN: every comparison with a NaN threshold is False). -/
def largeList (df : DF) : List (Cell × ℕ) :=
  match sizeVar df with
  | none => []
  | some v =>
    let m := meanQ ((transactionSizes df).map (fun p => ((p.2 : ℕ) : ℚ)))
    (transactionSizes df).filter (fun p => overThreshold ((p.2 : ℕ) : ℚ) m v)

/-- Oversized-transactions check. -/
def largePart (df : DF) : List (String × Anom) :=
  if (largeList df).isEmpty then []
  else
    [("large_transactions", Anom.large
      ("Transactions with unusually high number of items (>" ++
        fmtThresh1 (meanQ ((transactionSizes df).map (fun p => ((p.2 : ℕ) : ℚ)))) (sizeVar df) ++ ")")
      (largeList df))]

/-- Items occurring exactly once, in `value_counts` order. -/
def rareList (df : DF) : List Cell :=
  match getCells df "Item" with
  | none => []
  | some items => ((valueCounts items).filter (fun p => p.2 = 1)).map Prod.fst

/-- Rare-items check (first ten rare items). -/
def rarePart (df : DF) : List (String × Anom) :=
  if (rareList df).isEmpty then []
  else [("rare_items", Anom.rare "Items that appear only once in the dataset" ((rareList df).take 10))]

/-- Hours in 22–23 or 0–5. -/
def lateHour (h : ℕ) : Bool := (22 ≤ h && h < 24) || h < 6

/-- `value_counts` of the derived hour column restricted to late hours.
When some rows fail to parse, the hour column has float dtype and its keys
print with a trailing `.0`. -/
def unusualHourCounts (df : DF) : List (String × ℕ) :=
  match parsedDateTimes df with
  | none => []
  | some parsed =>
    let hours := parsed.filterMap (fun o => o.map Ts.hour)
    let intDtype := parsed.all (·.isSome)
    ((valueCounts hours).filter (fun p => lateHour p.1)).map
      (fun p => ((if intDtype then toString p.1 else toString p.1 ++ ".0"), p.2))

/-- Off-hours check.  The source derives the hour column only when no raw
`datetime` column exists; with such a column present the `df_copy['hour']`
lookup raises a KeyError that the function's handler catches, so the
previously accumulated checks are returned without this key. -/
def hoursPart (df : DF) : List (String × Anom) :=
  if "date_time" ∈ colNames df ∧ ¬ ("datetime" ∈ colNames df) then
    if (unusualHourCounts df).isEmpty then []
    else [("unusual_hours",
      Anom.hours "Transactions during unusual hours (10PM-6AM)" (unusualHourCounts df))]
  else []

/-- `detect_anomalies`: all three checks sit inside one
`if 'Transaction' in df.columns and 'Item' in df.columns` block. -/
def detect_anomalies (df : DF) : List (String × Anom) :=
  if "Transaction" ∈ colNames df ∧ "Item" ∈ colNames df then
    largePart df ++ rarePart df ++ hoursPart df
  else []

/-- `analyze_product_associations`: for each of the 30 most frequent items
of support at least `minSupport`, the co-occurring items within its
transactions, top five by count (stable descending order). -/
def analyze_product_associations (df : DF) (minSupport : ℕ) :
    List (Cell × List (Cell × ℕ)) :=
  if "Item" ∈ colNames df ∧ "Transaction" ∈ colNames df then
    match getCells df "Item", getCells df "Transaction" with
    | some items, some txns =>
      let rows := txns.zip items
      let txnKeys := sortedCells txns
      let popular := ((valueCounts items).filter (fun p => minSupport ≤ p.2)).map Prod.fst
      (popular.take 30).filterMap (fun item =>
        let itemTxns := txnKeys.filter
          (fun t => ((rows.filter (fun p => p.1 = t)).map Prod.snd).contains item)
        let related := (itemTxns.map (fun t =>
          ((rows.filter (fun p => p.1 = t)).map Prod.snd).filter
            (fun i => decide (i ≠ item)))).flatten
        let sorted := valueCounts related
        if sorted.isEmpty then none else some (item, sorted.take 5))
    | _, _ => []
  else []

end PD

namespace PD

/- `generate_correlation_matrix`: Cramér's V over the first at most four
object columns.  The source stores `round(sqrt(φ²corr / min(kcorr−1,
rcorr−1)), 3)`; since that square root is irrational we store the exact
radicand `φ²corr / min(kcorr−1, rcorr−1)` (the square of the unrounded
Cramér's V).  A float NaN cell is `none`; the diagonal is 1.0 and a raised
per-pair computation is caught and stored as 0.0. -/

def qSign (q : ℚ) : ℚ := if q < 0 then -1 else if 0 < q then 1 else 0

/-- `scipy.stats.chi2_contingency` + the bias-corrected Cramér's V formula
of the source, on the contingency table of a list of value pairs.
`.error` is scipy's zero-expected-frequency ValueError (unreachable for a
crosstab, whose row and column sums are positive); a 1×k table has zero
degrees of freedom and scipy returns χ² = 0.  With n ≤ 1 the bias term
`(k−1)(r−1)/(n−1)` is a numpy 0/0 → NaN, and `max(0, nan)` is 0 in Python,
after which the corrected cardinalities are NaN and the cell is NaN.
When `min(kcorr−1, rcorr−1) = 0` the float division is 0/0 (φ²corr is
provably 0 there) giving NaN. -/
def cramerCell (pairs : List (String × String)) : Except Unit (Option ℚ) :=
  let rvals := sortedKeys strBefore (pairs.map Prod.fst)
  let kvals := sortedKeys strBefore (pairs.map Prod.snd)
  let n := pairs.length
  let rowSum := fun rv => (pairs.filter (fun p => p.1 = rv)).length
  let colSum := fun kv => (pairs.filter (fun p => p.2 = kv)).length
  if rvals.any (fun rv => kvals.any (fun kv => rowSum rv * colSum kv = 0)) then
    Except.error ()
  else
    let r := rvals.length
    let k := kvals.length
    let dof := (r - 1) * (k - 1)
    let obs := fun rv kv => (((pairs.filter (fun p => p.1 = rv ∧ p.2 = kv)).length : ℕ) : ℚ)
    let expd := fun rv kv => ((rowSum rv : ℚ) * (colSum kv : ℚ)) / (n : ℚ)
    let chi2 : ℚ :=
      if dof = 0 then 0
      else if dof = 1 then
        (rvals.map (fun rv => (kvals.map (fun kv =>
          let o := obs rv kv + (1/2) * qSign (expd rv kv - obs rv kv)
          (o - expd rv kv) * (o - expd rv kv) / expd rv kv)).sum)).sum
      else
        (rvals.map (fun rv => (kvals.map (fun kv =>
          (obs rv kv - expd rv kv) * (obs rv kv - expd rv kv) / expd rv kv)).sum)).sum
    if n ≤ 1 then Except.ok none
    else
      let phi2 : ℚ := chi2 / (n : ℚ)
      let phi2corr := max 0 (phi2 - (((k - 1) * (r - 1) : ℕ) : ℚ) / ((n : ℚ) - 1))
      let rcorr : ℚ := (r : ℚ) - (((r - 1) ^ 2 : ℕ) : ℚ) / ((n : ℚ) - 1)
      let kcorr : ℚ := (k : ℚ) - (((k - 1) ^ 2 : ℕ) : ℚ) / ((n : ℚ) - 1)
      let m := min (kcorr - 1) (rcorr - 1)
      if m = 0 then Except.ok none
      else Except.ok (some (phi2corr / m))

def cramerPairE (df : DF) (a b : String) : Except Unit (Option ℚ) :=
  match getStrs df a, getStrs df b with
  | some xs, some ys => cramerCell (xs.zip ys)
  | _, _ => Except.error ()

/-- The value stored for an off-diagonal pair: a raised computation is
caught and becomes 0.0. -/
def cellValue (df : DF) (a b : String) : Option ℚ :=
  match cramerPairE df a b with
  | Except.error _ => some 0
  | Except.ok v => v

abbrev CatMatrix := List (String × List (String × Option ℚ))

def mGet (m : CatMatrix) (a b : String) : Option (Option ℚ) :=
  (m.find? (fun row => row.1 = a)).bind
    (fun row => ((row.2.find? (fun c => c.1 = b)).map Prod.snd))

/-- One row of the matrix: self is 1.0, an already-present mirror cell is
copied, otherwise the pair is computed. -/
def buildRow (df : DF) (acc : CatMatrix) (c1 : String) (sel : List String) :
    List (String × Option ℚ) :=
  sel.map (fun c2 =>
    (c2, if c1 = c2 then some 1
         else
           match mGet acc c2 c1 with
           | some v => v
           | none => cellValue df c1 c2))

def generate_correlation_matrix (df : DF) : CatMatrix :=
  if dfEmpty df ∨ (colNames df).length < 2 then []
  else
    let cats := catCols df
    if cats.length < 2 then []
    else
      let sel := cats.take 4
      sel.foldl (fun acc c1 => acc ++ [(c1, buildRow df acc c1 sel)]) []

end PD

namespace PD

/- `segment_customers` (RFM segmentation). -/

structure TopCustomers where
  recency : List (Cell × ℚ)
  frequency : List (Cell × ℚ)
  r_score : List (Cell × ℕ)
  f_score : List (Cell × ℕ)
  rfm_score : List (Cell × String)
  segment : List (Cell × String)
deriving DecidableEq

structure CustomerSegments where
  segments : List (String × ℕ)
  segment_stats : List (String × List (String × ℚ))
  top_customers : TopCustomers
deriving DecidableEq

/-- The ordered code tables of the source; `next(...)` takes the first
matching entry and defaults to `Others`. -/
def segTable : List (String × List String) :=
  [("Champions", ["55", "54", "45"]),
   ("Loyal", ["53", "52", "51", "44", "43", "42", "35", "34", "33"]),
   ("Potential", ["41", "32", "31", "25", "24", "23"]),
   ("New", ["15", "14", "13", "12", "11"]),
   ("At Risk", ["50", "40", "30", "20", "10"]),
   ("Others", [])]

def segmentOf (code : String) : String :=
  ((segTable.find? (fun kv => kv.2.contains code)).map Prod.fst).getD "Others"

def segNames : List String := segTable.map Prod.fst

structure RfmRow where
  txn : Cell
  recency : ℚ
  frequency : ℚ
  r_score : ℕ
  f_score : ℕ
  code : String
  segment : String
deriving DecidableEq

def mkRows : List Cell → List ℚ → List ℚ → List ℕ → List ℕ → List RfmRow
  | k :: ks, r :: rs, f :: fs, a :: ra, b :: rb =>
    let code := toString a ++ toString b
    ⟨k, r, f, a, b, code, segmentOf code⟩ :: mkRows ks rs fs ra rb
  | _, _, _, _, _ => []

def sortDescByQ (w : α → ℚ) (l : List α) : List α :=
  sortBy (fun y x => decide (w x < w y)) l

/-- From the per-transaction recency and frequency columns to the result
record (quantile scoring, code mapping, summaries).  `value_counts` orders
the segment counts; `groupby('segment')` orders the means alphabetically;
the top customers are the ten highest frequencies (stable order; pandas
`sort_values`' default quicksort leaves ties unspecified). -/
def buildSegments (keys : List Cell) (recencies freqs : List ℚ) :
    Option CustomerSegments := do
  let rS ← qcut5 recencies [5, 4, 3, 2, 1]
  let fS ← qcut5 freqs [1, 2, 3, 4, 5]
  let rows := mkRows keys recencies freqs rS fS
  let names := rows.map (·.segment)
  let segsAlpha := sortedKeys strBefore names
  let top := (sortDescByQ (·.frequency) rows).take 10
  pure
    { segments := valueCounts names
      segment_stats :=
        [("recency", segsAlpha.map (fun s =>
            (s, meanQ ((rows.filter (fun t => t.segment = s)).map (·.recency))))),
         ("frequency", segsAlpha.map (fun s =>
            (s, meanQ ((rows.filter (fun t => t.segment = s)).map (·.frequency)))))]
      top_customers :=
        ⟨top.map (fun t => (t.txn, t.recency)), top.map (fun t => (t.txn, t.frequency)),
         top.map (fun t => (t.txn, t.r_score)), top.map (fun t => (t.txn, t.f_score)),
         top.map (fun t => (t.txn, t.code)), top.map (fun t => (t.txn, t.segment))⟩ }

/-- `segment_customers`.  Frequency is the per-transaction row count
(`Item: 'count'` over the cleaned frame); recency the whole days between
the latest overall timestamp and the transaction's latest timestamp, or
the constant 1 when `date_time` is absent.  `pd.qcut` raising (duplicate
bin edges — in particular on the constant recency of the no-timestamp
branch) is caught by the function's handler and yields the empty result.
A frame in which some transaction has no parseable timestamp is modelled
conservatively as the empty result (the source threads float NaNs through
qcut there). -/
def segment_customers (df : DF) : Option CustomerSegments :=
  if "Transaction" ∈ colNames df ∧ "Item" ∈ colNames df then
    match getCells df "Transaction" with
    | none => none
    | some txns =>
      let keys := sortedCells txns
      let freqs : List ℚ := keys.map (fun k => ((txns.count k : ℕ) : ℚ))
      if "date_time" ∈ colNames df then
        match parsedDateTimes df with
        | none => none
        | some parsed => do
          let today ← listMaxN (parsed.filterMap id)
          let rows := parsed.zip txns
          let recencies ← mapMO (fun k =>
            (listMaxN ((rows.filter (fun p => p.2 = k)).filterMap Prod.fst)).map
              (fun mx => (((today - mx) / 1440 : ℕ) : ℚ))) keys
          buildSegments keys recencies freqs
      else buildSegments keys (keys.map (fun _ => (1 : ℚ))) freqs
  else none

end PD

namespace PD

/- The statistics document of `generate_insights`: a Python dict built by
successive key assignment, modelled as an association list in insertion
order. -/

inductive Section
  | numeric (v : List (String × NumericStats))
  | categorical (v : List (String × CatStats))
  | corrs (v : List (String × List (String × Option PCell)))
  | timeP (v : List (String × TPVal))
  | assoc (v : List (Cell × List (Cell × ℕ)))
  | catCorr (v : CatMatrix)
  | anom (v : List (String × Anom))
  | fcst (v : Option ForecastRecord)
  | segs (v : Option CustomerSegments)
deriving DecidableEq

abbrev StatsDoc := List (String × Section)

def dget (d : StatsDoc) (k : String) : Option Section :=
  (d.find? (fun p => p.1 = k)).map Prod.snd

def statsNumeric (d : StatsDoc) : List (String × NumericStats) :=
  match dget d "numeric_columns" with
  | some (.numeric v) => v
  | _ => []

def statsCategorical (d : StatsDoc) : List (String × CatStats) :=
  match dget d "categorical_columns" with
  | some (.categorical v) => v
  | _ => []

def statsCorrelations (d : StatsDoc) : List (String × List (String × Option PCell)) :=
  match dget d "correlations" with
  | some (.corrs v) => v
  | _ => []

def statsTimePatterns (d : StatsDoc) : Option (List (String × TPVal)) :=
  match dget d "time_patterns" with
  | some (.timeP v) => some v
  | _ => none

def statsAssociations (d : StatsDoc) : List (Cell × List (Cell × ℕ)) :=
  match dget d "product_associations" with
  | some (.assoc v) => v
  | _ => []

def statsForecast (d : StatsDoc) : Option ForecastRecord :=
  match dget d "forecast" with
  | some (.fcst v) => v
  | _ => none

def statsSegments (d : StatsDoc) : Option CustomerSegments :=
  match dget d "customer_segments" with
  | some (.segs v) => v
  | _ => none

/-- The statistics part of `generate_insights` (everything before the
text-generation step).  The collected sections never raise; the only
uncaught exception of this part is `value_counts().index[0]` on an empty
object column (zero cleaned rows), modelled by the Option. -/
def generateStats (df : DF) (ext : ExternalForecasters) : Option StatsDoc := do
  let ncols := numericCols df
  let catStats ← mapMO (fun c =>
    (mostCommon c.2).map (fun mc => (c.1, CatStats.mk (firstDedup c.2).length mc)))
    (catColsData df)
  pure
    [("numeric_columns", Section.numeric
        (ncols.map (fun c => (c.1, numericColStats c.2)))),
     ("categorical_columns", Section.categorical catStats),
     ("correlations", Section.corrs
        (if 1 < ncols.length then pearsonMatrix ncols else [])),
     ("time_patterns", Section.timeP (analyze_time_patterns df)),
     ("product_associations", Section.assoc (analyze_product_associations df 10)),
     ("categorical_correlation", Section.catCorr (generate_correlation_matrix df)),
     ("anomalies", Section.anom (detect_anomalies df)),
     ("forecast", Section.fcst (forecast_sales df ext)),
     ("customer_segments", Section.segs (segment_customers df))]

def nineKeys : List String :=
  ["numeric_columns", "categorical_columns", "correlations", "time_patterns",
   "product_associations", "categorical_correlation", "anomalies", "forecast",
   "customer_segments"]

end PD

namespace PD

/- `generate_basic_insights`, line by line. -/

def numericLines (nc : List (String × NumericStats)) : List String :=
  nc.flatMap (fun p =>
    ["Column '" ++ p.1 ++ "' statistics:",
     "- Average: " ++ fmtOpt2 p.2.mean,
     "- Range: " ++ fmtOpt2 p.2.min ++ " to " ++ fmtOpt2 p.2.max,
     "- Standard deviation: " ++ fmtStd2 p.2.std_sq,
     ""])

def categoricalLines (cc : List (String × CatStats)) : List String :=
  cc.flatMap (fun p =>
    ["Column '" ++ p.1 ++ "' analysis:",
     "- Number of unique values: " ++ toString p.2.unique_values,
     "- Most common value: " ++ p.2.most_common,
     ""])

def correlationLines (m : List (String × List (String × Option PCell))) : List String :=
  if m.isEmpty then []
  else
    "Correlation Analysis:" ::
    m.flatMap (fun row =>
      row.2.flatMap (fun c =>
        if row.1 < c.1 then ["- " ++ row.1 ++ " vs " ++ c.1 ++ ": " ++ fmtPearson2 c.2]
        else []))

def tpNat (tp : List (String × TPVal)) (k : String) : Option (List (ℕ × ℕ)) :=
  match (tp.find? (fun p => p.1 = k)).map Prod.snd with
  | some (.natCounts l) => some l
  | _ => none

def tpStr (tp : List (String × TPVal)) (k : String) : Option (List (String × ℕ)) :=
  match (tp.find? (fun p => p.1 = k)).map Prod.snd with
  | some (.strCounts l) => some l
  | _ => none

/-- The time-pattern block: the header is emitted whenever the key is
present (even over an empty sub-dict); the peak lines take Python's
`max(items, key=value)`, the first maximum in iteration order (the peak
lines of the source would raise on an empty sub-dict, which is
unreachable: the sub-dicts are built from at least one parsed row). -/
def timeLines (tpo : Option (List (String × TPVal))) : List String :=
  match tpo with
  | none => []
  | some tp =>
    "\nTime Pattern Analysis:" ::
    ((match tpNat tp "hourly" with
      | none => []
      | some h => ["- Peak hour with most transactions: " ++
          toString (firstMaxKey h 0) ++ ":00"]) ++
     (match tpStr tp "daily" with
      | none => []
      | some d => ["- Peak day with most transactions: " ++ firstMaxKey d ""]) ++
     (match tpStr tp "weekday_weekend" with
      | none => []
      | some wk =>
        ["- Distribution: " ++
         toString (((wk.find? (fun p => p.1 = "weekday")).map Prod.snd).getD 0) ++
         " weekday transactions vs " ++
         toString (((wk.find? (fun p => p.1 = "weekend")).map Prod.snd).getD 0) ++
         " weekend transactions"]))

def associationLines (a : List (Cell × List (Cell × ℕ))) : List String :=
  if a.isEmpty then []
  else
    "\nProduct Association Analysis:" ::
    (a.take 5).map (fun p =>
      "- Items frequently purchased with " ++ cellToString p.1 ++ ": " ++
      String.intercalate ", "
        ((p.2.take 3).map (fun q => cellToString q.1 ++ " (" ++ toString q.2 ++ ")")))

/-- The forecast block; the record always carries its `trend`,
`seasonal_periods` and `peak_forecast_day` keys. -/
def forecastLines (f : Option ForecastRecord) : List String :=
  match f with
  | none => []
  | some fc =>
    ["\nSales Forecast Analysis:",
     "- Sales trend: " ++ (if 0 < fc.trend then "upward" else "downward") ++
       " trend detected with " ++ fmt1 |fc.trend| ++ "% monthly change",
     "- Seasonal patterns: " ++ fc.seasonal_periods,
     "- Peak sales forecast: " ++ fc.peak_forecast_day]

def segmentLines (cso : Option CustomerSegments) : List String :=
  match cso with
  | none => []
  | some cs =>
    let total : ℚ := ((cs.segments.map Prod.snd).sum : ℕ)
    "\nCustomer Segmentation Analysis:" ::
    cs.segments.map (fun p =>
      "- " ++ p.1 ++ ": " ++ toString p.2 ++ " customers (" ++
      fmt1 ((p.2 : ℚ) / total * 100) ++ "%)")

def basicInsightLines (d : StatsDoc) : List String :=
  numericLines (statsNumeric d) ++
  categoricalLines (statsCategorical d) ++
  correlationLines (statsCorrelations d) ++
  timeLines (statsTimePatterns d) ++
  associationLines (statsAssociations d) ++
  forecastLines (statsForecast d) ++
  segmentLines (statsSegments d)

def generate_basic_insights (d : StatsDoc) : String :=
  String.intercalate "\n" (basicInsightLines d)

/-- Outcome of the external text-generation collaborator: no credential in
the environment, a raised call (quota, rate limit, network, …), or a
returned narrative. -/
inductive Collab
  | noKey
  | apiError
  | ok (text : String)
deriving DecidableEq

structure InsightBundle where
  statistics : StatsDoc
  insights : String
deriving DecidableEq

/-- `generate_insights`: the statistics document plus a narrative — the
collaborator's text when the call succeeds, the deterministic
`generate_basic_insights` fallback when the credential is missing or the
call raises. -/
def generate_insights (df : DF) (ext : ExternalForecasters) (collab : Collab) :
    Option InsightBundle :=
  (generateStats df ext).map (fun stats =>
    match collab with
    | .noKey => ⟨stats, generate_basic_insights stats⟩
    | .apiError => ⟨stats, generate_basic_insights stats⟩
    | .ok t => ⟨stats, t⟩)

end PD

namespace PD

/- Concrete frames and external outcomes used by the claim instances. -/

/-- The spec scenario frame: `Transaction = [1,1,2,2]`, `Item = [A,B,A,B]`,
no timestamp column. -/
def dfScenario : DF :=
  [⟨"Transaction", ColData.nums [1, 1, 2, 2]⟩,
   ⟨"Item", ColData.strs ["A", "B", "A", "B"]⟩]

/-- A frame with a single numeric column holding the spec's sales
scenario. -/
def dfSales : DF := [⟨"sales", ColData.nums [120, 150, 135, 145]⟩]

/-- Five transactions of sizes 1..5 on five consecutive days. -/
def dfFive : DF :=
  [⟨"date_time", ColData.strs
      ["01-01-2023 10:00",
       "02-01-2023 10:00", "02-01-2023 10:00",
       "03-01-2023 10:00", "03-01-2023 10:00", "03-01-2023 10:00",
       "04-01-2023 10:00", "04-01-2023 10:00", "04-01-2023 10:00", "04-01-2023 10:00",
       "05-01-2023 10:00", "05-01-2023 10:00", "05-01-2023 10:00", "05-01-2023 10:00",
       "05-01-2023 10:00"]⟩,
   ⟨"Transaction", ColData.nums [1, 2, 2, 3, 3, 3, 4, 4, 4, 4, 5, 5, 5, 5, 5]⟩,
   ⟨"Item", ColData.strs
      ["X", "X", "X", "X", "X", "X", "X", "X", "X", "X", "X", "X", "X", "X", "X"]⟩]

/-- Two object columns forming a non-degenerate 2×2 pair. -/
def dfTwoCats : DF :=
  [⟨"X", ColData.strs ["a", "a", "b", "b"]⟩,
   ⟨"Y", ColData.strs ["c", "d", "c", "d"]⟩]

/-- Two object columns with zero cleaned rows. -/
def dfNoRows : DF := [⟨"X", ColData.strs []⟩, ⟨"Y", ColData.strs []⟩]

/-- One parseable off-hours timestamp and a transaction, but no `Item`
column. -/
def dfLateNoItem : DF :=
  [⟨"date_time", ColData.strs ["01-01-2023 23:00"]⟩,
   ⟨"Transaction", ColData.nums [1]⟩]

/-- A one-row timestamped frame for exercising the forecaster. -/
def dfOneDay : DF :=
  [⟨"date_time", ColData.strs ["01-01-2023 10:00"]⟩,
   ⟨"Transaction", ColData.nums [1]⟩]

/-- Both forecasting libraries unavailable. -/
def extNone : ExternalForecasters := ⟨none, none⟩

/-- Prophet unavailable; the smoothing model returns a constant negative
forecast (an exponential-smoothing fit on a declining series forecasts
negative values). -/
def extNegative : ExternalForecasters := ⟨none, some (List.replicate 30 (-10 : ℚ))⟩

instance : Inhabited ForecastRecord := ⟨⟨[], [], [], [], 0, "", ""⟩⟩

instance : Inhabited ProphetPred := ⟨⟨0, 0, 0⟩⟩

instance : Inhabited CustomerSegments := ⟨⟨[], [], ⟨[], [], [], [], [], []⟩⟩⟩

/-- The four length conditions of the forecast-shape claim. -/
def lens30 (r : ForecastRecord) : Prop :=
  r.dates.length = 30 ∧ r.predicted.length = 30 ∧
  r.lower_bound.length = 30 ∧ r.upper_bound.length = 30

instance (r : ForecastRecord) : Decidable (lens30 r) := by
  unfold lens30; infer_instance

/-- `lower_bound[i] ≤ predicted[i] ≤ upper_bound[i]` for every index. -/
def bracketOK (r : ForecastRecord) : Prop :=
  ∀ i < r.predicted.length,
    r.lower_bound.getD i 0 ≤ r.predicted.getD i 0 ∧
    r.predicted.getD i 0 ≤ r.upper_bound.getD i 0

instance (r : ForecastRecord) : Decidable (bracketOK r) := by
  unfold bracketOK; exact Nat.decidableBallLT _ _

/-- The transaction column of a frame (empty when absent). -/
def transactionColumn (df : DF) : List Cell := (getCells df "Transaction").getD []

/-- Modelled from the spec: §4.1 prescribes the *population* standard
deviation, "a column with one row yields std = 0"; this is its square, the
mean squared deviation, with the spec's one-row convention. -/
def popVariance (l : List ℚ) : Option ℚ :=
  match l with
  | [] => none
  | _ :: _ =>
    let m := meanQ l
    some ((l.map (fun x => (x - m) * (x - m))).sum / (l.length : ℚ))

end PD

namespace PD

/- Support definitions for the matrix characterisation and the claim
instances. -/

/-- Index of the first occurrence of a string in a list (length when
absent). -/
def idxOfS : List String → String → ℕ
  | [], _ => 0
  | a :: t, x => if a = x then 0 else idxOfS t x + 1

/-- The value `generate_correlation_matrix` ends up storing at `(c1, c2)`:
1.0 on the diagonal, otherwise the pair computed in the orientation in
which the build first met it. -/
def eVal (df : DF) (sel : List String) (c1 c2 : String) : Option ℚ :=
  if c1 = c2 then some 1
  else if idxOfS sel c2 < idxOfS sel c1 then cellValue df c2 c1
  else cellValue df c1 c2

/-- One fully built matrix row. -/
def rowFun (df : DF) (sel : List String) (c1 : String) :
    String × List (String × Option ℚ) :=
  (c1, sel.map (fun c2 => (c2, eVal df sel c1 c2)))

/-- The statistics document of the sales scenario frame. -/
def statsSales : StatsDoc := (generateStats dfSales extNone).getD []

end PD

namespace PD

/- Permutation and counting facts for the sorting embedding. -/

theorem insertBy_perm (b : α → α → Bool) (x : α) :
    ∀ l : List α, (insertBy b x l).Perm (x :: l)
  | [] => .refl _
  | y :: ys => by
    unfold insertBy
    split
    · exact ((insertBy_perm b x ys).cons y).trans (List.Perm.swap x y ys)
    · exact .refl _

theorem sortBy_perm (b : α → α → Bool) : ∀ l : List α, (sortBy b l).Perm l
  | [] => .refl _
  | x :: xs => (insertBy_perm b x (sortBy b xs)).trans ((sortBy_perm b xs).cons x)

theorem mem_sortBy {b : α → α → Bool} {l : List α} {a : α} :
    a ∈ sortBy b l ↔ a ∈ l := (sortBy_perm b l).mem_iff

theorem sortBy_length (b : α → α → Bool) (l : List α) :
    (sortBy b l).length = l.length := (sortBy_perm b l).length_eq

theorem firstDedupAux_fuel [DecidableEq α] :
    ∀ (f₁ f₂ : ℕ) (l : List α), l.length ≤ f₁ → l.length ≤ f₂ →
      firstDedupAux f₁ l = firstDedupAux f₂ l := by
  intro f₁
  induction f₁ with
  | zero =>
    intro f₂ l h1 _
    cases l with
    | nil => cases f₂ <;> rfl
    | cons a t => simp at h1
  | succ f ih =>
    intro f₂ l h1 h2
    cases l with
    | nil => cases f₂ <;> rfl
    | cons a t =>
      cases f₂ with
      | zero => simp at h2
      | succ f' =>
        rw [firstDedupAux, firstDedupAux]
        have hle := List.length_filter_le (fun b => !(b = a)) t
        rw [ih f' _ (by simp at h1; omega) (by simp at h2; omega)]

theorem firstDedup_nil [DecidableEq α] : firstDedup ([] : List α) = [] := rfl

theorem firstDedup_cons [DecidableEq α] (a : α) (l : List α) :
    firstDedup (a :: l) = a :: firstDedup (l.filter (fun b => !(b = a))) := by
  unfold firstDedup
  rw [List.length_cons, firstDedupAux]
  have hle := List.length_filter_le (fun b => !(b = a)) l
  rw [firstDedupAux_fuel l.length _ _ hle le_rfl]

/-- Induction along the recursion structure of `firstDedup`. -/
theorem firstDedup_rec [DecidableEq α] {motive : List α → Prop}
    (h0 : motive ([] : List α))
    (h1 : ∀ a l, motive (l.filter (fun b => !(b = a))) → motive (a :: l)) :
    ∀ l, motive l := by
  intro l
  generalize hn : l.length = n
  induction n using Nat.strong_induction_on generalizing l with
  | _ n ih =>
    cases l with
    | nil => exact h0
    | cons a t =>
      apply h1
      apply ih (t.filter (fun b => !(b = a))).length ?_ _ rfl
      have := List.length_filter_le (fun b => !(b = a)) t
      simp only [← hn, List.length_cons]
      omega

theorem mem_firstDedup [DecidableEq α] (a : α) :
    ∀ l : List α, a ∈ firstDedup l ↔ a ∈ l := by
  intro l
  induction l using firstDedup_rec with
  | h0 => simp [firstDedup_nil]
  | h1 x t ih =>
    rw [firstDedup_cons]
    by_cases hax : a = x
    · subst hax; simp
    · simp only [List.mem_cons, ih, List.mem_filter, hax, false_or]
      constructor
      · exact fun h => h.1
      · exact fun h => ⟨h, by simp [hax]⟩

theorem firstDedup_nodup [DecidableEq α] : ∀ l : List α, (firstDedup l).Nodup := by
  intro l
  induction l using firstDedup_rec with
  | h0 => simp [firstDedup_nil]
  | h1 x t ih =>
    rw [firstDedup_cons]
    refine List.nodup_cons.mpr ⟨?_, ih⟩
    rw [mem_firstDedup]
    simp [List.mem_filter]

theorem count_filter_ne [DecidableEq α] (l : List α) (x a : α) (h : x ≠ a) :
    (l.filter (fun b => !(b = a))).count x = l.count x := by
  induction l with
  | nil => rfl
  | cons y t ih =>
    rw [List.filter_cons]
    by_cases hy : y = a
    · subst hy
      rw [if_neg (by simp)]
      rw [List.count_cons_of_ne h t]
      exact ih
    · rw [if_pos (by simp [hy])]
      rw [List.count_cons, List.count_cons, ih]

theorem length_filter_count [DecidableEq α] (a : α) (l : List α) :
    l.length = l.count a + (l.filter (fun b => !(b = a))).length := by
  induction l with
  | nil => rfl
  | cons y t ih =>
    rw [List.filter_cons]
    by_cases hy : y = a
    · subst hy
      rw [if_neg (by simp), List.count_cons_self]
      simp only [List.length_cons]
      omega
    · rw [if_pos (by simp [hy]),
        List.count_cons_of_ne (fun hay => hy hay.symm) t]
      simp only [List.length_cons]
      omega

theorem sum_counts_firstDedup [DecidableEq α] :
    ∀ l : List α, ((firstDedup l).map (fun a => l.count a)).sum = l.length := by
  intro l
  induction l using firstDedup_rec with
  | h0 => simp [firstDedup_nil]
  | h1 x t ih =>
    rw [firstDedup_cons]
    simp only [List.map_cons, List.sum_cons]
    have hmap : (firstDedup (t.filter (fun b => !(b = x)))).map (fun a => (x :: t).count a)
        = (firstDedup (t.filter (fun b => !(b = x)))).map
            (fun a => (t.filter (fun b => !(b = x))).count a) := by
      apply List.map_congr_left
      intro a ha
      have hat := (mem_firstDedup a _).mp ha
      have hax : a ≠ x := by
        have := (List.mem_filter.mp hat).2
        simpa using this
      rw [List.count_cons_of_ne hax, count_filter_ne t a x hax]
    rw [hmap, ih, List.count_cons_self]
    have := length_filter_count x t
    simp only [List.length_cons]
    omega

theorem valueCounts_sum [DecidableEq α] (l : List α) :
    ((valueCounts l).map Prod.snd).sum = l.length := by
  unfold valueCounts sortDescBy
  rw [((sortBy_perm (fun y x => decide (x.2 < y.2))
    ((firstDedup l).map (fun a => (a, l.count a)))).map Prod.snd).sum_eq]
  rw [List.map_map]
  exact sum_counts_firstDedup l

theorem valueCounts_keys_mem [DecidableEq α] {l : List α} {p : α × ℕ}
    (h : p ∈ valueCounts l) : p.1 ∈ l := by
  unfold valueCounts sortDescBy at h
  rw [(sortBy_perm _ _).mem_iff] at h
  obtain ⟨a, ha, hpa⟩ := List.mem_map.mp h
  have : p.1 = a := by rw [← hpa]
  rw [this]
  exact (mem_firstDedup a l).mp ha

theorem mapMO_length {f : α → Option β} :
    ∀ {l : List α} {r : List β}, mapMO f l = some r → r.length = l.length := by
  intro l
  induction l with
  | nil => intro r h; simp [mapMO] at h; simp [← h]
  | cons a t ih =>
    intro r h
    simp only [mapMO, Option.bind_eq_bind, Option.bind_eq_some] at h
    obtain ⟨b, _, r', hr', hrr⟩ := h
    have hr : r = b :: r' := by
      have := hrr.symm
      simpa [pure] using this
    rw [hr]
    simp [ih hr']

theorem getD_mem {l : List α} {i : ℕ} (h : i < l.length) (d : α) : l.getD i d ∈ l := by
  rw [List.getD_eq_getElem l d h]
  exact List.getElem_mem h

theorem getD_map (f : α → β) {l : List α} {i : ℕ} (h : i < l.length)
    (dα : α) (dβ : β) : (l.map f).getD i dβ = f (l.getD i dα) := by
  rw [List.getD_eq_getElem _ _ (by simpa using h), List.getD_eq_getElem _ _ h]
  simp

end PD

namespace PD

/- qcut, rounding and truncation facts. -/

theorem qcut5_length {vals : List ℚ} {labels : List ℕ} {out : List ℕ}
    (h : qcut5 vals labels = some out) : out.length = vals.length := by
  cases vals with
  | nil => simp [qcut5] at h
  | cons v t =>
    rw [qcut5] at h
    split at h
    · injection h with h'
      rw [← h']
      simp
    · simp at h

theorem binIdx_lt (edges : List ℚ) (x : ℚ) : binIdx edges x < 5 := by
  unfold binIdx
  rcases hf : (List.range 5).find? (fun i => decide (x ≤ edges.getD (i + 1) 0)) with _ | i
  · simp
  · have hm := List.mem_of_find?_eq_some hf
    simp only [List.mem_range] at hm
    simpa using hm

theorem qcut5_mem {vals : List ℚ} {labels : List ℕ} {out : List ℕ}
    (hlab : labels.length = 5) (h : qcut5 vals labels = some out) :
    ∀ x ∈ out, x ∈ labels := by
  cases vals with
  | nil => simp [qcut5] at h
  | cons v t =>
    rw [qcut5] at h
    split at h
    · injection h with h'
      rw [← h']
      intro x hx
      obtain ⟨y, _, hy⟩ := List.mem_map.mp hx
      rw [← hy]
      exact getD_mem (by rw [hlab]; exact binIdx_lt _ _) 0
    · simp at h

theorem floor_le_roundHE (q : ℚ) : Int.floor q ≤ roundHE q := by
  unfold roundHE
  dsimp only
  split_ifs <;> omega

theorem roundHE_le_floor_succ (q : ℚ) : roundHE q ≤ Int.floor q + 1 := by
  unfold roundHE
  dsimp only
  split_ifs <;> omega

theorem roundHE_mono {a b : ℚ} (h : a ≤ b) : roundHE a ≤ roundHE b := by
  have hf : Int.floor a ≤ Int.floor b := Int.floor_le_floor h
  rcases eq_or_lt_of_le hf with heq | hlt
  · have hfr : a - (Int.floor a : ℚ) ≤ b - (Int.floor a : ℚ) := by linarith
    unfold roundHE
    rw [← heq]
    dsimp only
    split_ifs <;> first | omega | (exfalso; linarith)
  · have h1 := roundHE_le_floor_succ a
    have h2 := floor_le_roundHE b
    omega

theorem pyInt_nonneg_eq_floor {q : ℚ} (h : 0 ≤ q) : pyInt q = Int.floor q := by
  unfold pyInt
  rw [if_neg (not_lt.mpr h)]

theorem pyInt_mono_nonneg {a b : ℚ} (ha : 0 ≤ a) (hab : a ≤ b) : pyInt a ≤ pyInt b := by
  rw [pyInt_nonneg_eq_floor ha, pyInt_nonneg_eq_floor (ha.trans hab)]
  exact Int.floor_le_floor hab

theorem getD_replicate {a : α} {n i : ℕ} (h : i < n) (d : α) :
    (List.replicate n a).getD i d = a := by
  rw [List.getD_eq_getElem _ _ (by simpa using h)]
  simp

end PD

namespace PD

/- Per-tier guarantees of the forecaster. -/

theorem tier3_ok {daily : List (ℕ × ℕ)} {r : ForecastRecord}
    (h : tier3 daily = some r) : lens30 r ∧ bracketOK r := by
  cases daily with
  | nil => simp [tier3] at h
  | cons d t =>
    rw [tier3] at h
    injection h with h'
    subst h'
    have hma : (0 : ℚ) ≤
        ((((d :: t).map Prod.snd).drop (((d :: t).map Prod.snd).length - min 7 (d :: t).length)).sum : ℕ) /
          ((min 7 (d :: t).length : ℕ) : ℚ) := by positivity
    constructor
    · refine ⟨by simp, by simp, by simp, by simp⟩
    · intro i hi
      simp only [List.length_replicate] at hi
      constructor
      · rw [getD_replicate hi, getD_replicate hi]
        exact pyInt_mono_nonneg (by positivity) (by linarith)
      · rw [getD_replicate hi, getD_replicate hi]
        exact pyInt_mono_nonneg hma (by linarith)

end PD

namespace PD

theorem tier2_ok {lastDay : ℕ} {preds : List ℚ} {r : ForecastRecord}
    (hlen : preds.length = 30) (hnn : ∀ p ∈ preds, 0 ≤ p)
    (h : tier2 lastDay preds = some r) : lens30 r ∧ bracketOK r := by
  cases preds with
  | nil => simp [tier2] at h
  | cons p0 t =>
    rw [tier2] at h
    split at h
    · injection h with h'
      subst h'
      constructor
      · exact ⟨by simp, by simpa using hlen, by simpa using hlen, by simpa using hlen⟩
      · intro i hi
        simp only [List.length_map] at hi
        have hp : (p0 :: t).getD i 0 ∈ p0 :: t := getD_mem hi (0 : ℚ)
        have hp0 := hnn _ hp
        constructor
        · rw [getD_map roundHE hi (0 : ℚ), getD_map _ hi (0 : ℚ)]
          exact roundHE_mono (by linarith)
        · rw [getD_map roundHE hi (0 : ℚ), getD_map _ hi (0 : ℚ)]
          exact roundHE_mono (by linarith)
    · simp at h

theorem tier1_ok {lastDay histLen : ℕ} {rows : List ProphetPred} {r : ForecastRecord}
    (hlen : rows.length = 30)
    (hbr : ∀ x ∈ rows, x.yhat_lower ≤ x.yhat ∧ x.yhat ≤ x.yhat_upper)
    (h : tier1 lastDay histLen rows = some r) : lens30 r ∧ bracketOK r := by
  cases rows with
  | nil => simp [tier1] at h
  | cons r0 t =>
    rw [tier1] at h
    split at h
    · injection h with h'
      subst h'
      constructor
      · refine ⟨by simpa using hlen, ?_, ?_, ?_⟩ <;> simpa using hlen
      · intro i hi
        simp only [List.length_map] at hi
        have hx : (r0 :: t).getD i default ∈ r0 :: t := getD_mem hi default
        have hxb := hbr _ hx
        constructor
        · rw [List.map_map, getD_map _ hi default, getD_map _ hi default]
          exact roundHE_mono hxb.1
        · rw [List.map_map, getD_map _ hi default, getD_map _ hi default]
          exact roundHE_mono hxb.2
    · simp at h

/-- C1 (amended): whenever the forecaster yields a non-empty forecast and
the external models honour their contracts — the seasonal model emits 30
future rows whose uncertainty band brackets the point estimate, the
smoothing model emits 30 nonnegative point forecasts — the record has
exactly 30 entries in each of dates, predicted, lower_bound and
upper_bound, and lower_bound[i] ≤ predicted[i] ≤ upper_bound[i] for every
index; the moving-average tier needs no proviso. -/
theorem C1_forecast_shape (df : DF) (ext : ExternalForecasters) (r : ForecastRecord)
    (hp : ∀ rows, ext.prophet = some rows →
      rows.length = 30 ∧ ∀ x ∈ rows, x.yhat_lower ≤ x.yhat ∧ x.yhat ≤ x.yhat_upper)
    (hs : ∀ preds, ext.smoothing = some preds →
      preds.length = 30 ∧ ∀ p ∈ preds, 0 ≤ p)
    (hr : forecast_sales df ext = some r) :
    lens30 r ∧ bracketOK r := by
  unfold forecast_sales at hr
  split at hr
  case isFalse => simp at hr
  case isTrue =>
    split at hr
    case h_1 => simp at hr
    case h_2 d0 drest heq =>
      dsimp only at hr
      split at hr
      · rename_i r1 hbind
        obtain ⟨rows, hrows, ht1⟩ := Option.bind_eq_some.mp hbind
        obtain ⟨hl, hb⟩ := hp rows hrows
        have hres := tier1_ok hl hb ht1
        simp only [Option.some.injEq] at hr
        rw [← hr]
        exact hres
      · split at hr
        · rename_i r2 hbind2
          obtain ⟨preds, hpred, ht2⟩ := Option.bind_eq_some.mp hbind2
          obtain ⟨hl, hn⟩ := hs preds hpred
          have hres := tier2_ok hl hn ht2
          simp only [Option.some.injEq] at hr
          rw [← hr]
          exact hres
        · exact tier3_ok hr

end PD

namespace PD

/-- Witness for C1: with both external libraries unavailable the
moving-average tier fires on a concrete frame and the amended claim's
conclusion holds there. -/
theorem C1_forecast_shape_witness :
    (forecast_sales dfOneDay extNone).isSome ∧
    lens30 ((forecast_sales dfOneDay extNone).getD default) ∧
    bracketOK ((forecast_sales dfOneDay extNone).getD default) := by
  have h : forecast_sales dfOneDay extNone =
      some ((forecast_sales dfOneDay extNone).getD default) := by with_unfolding_all rfl
  have hres := C1_forecast_shape dfOneDay extNone
    ((forecast_sales dfOneDay extNone).getD default)
    (fun rows hrows => by simp [extNone] at hrows)
    (fun preds hpreds => by simp [extNone] at hpreds) h
  exact ⟨by rw [h]; rfl, hres.1, hres.2⟩

/-- Counterexample for C1 as stated: when the smoothing library returns a
negative point forecast (reachable on a declining series), the synthesized
±20% bounds invert and `lower_bound[0] = −8 > predicted[0] = −10`. -/
theorem C1_negative_forecast_cex :
    (forecast_sales dfOneDay extNegative).isSome ∧
    ((forecast_sales dfOneDay extNegative).getD default).predicted.getD 0 0 = -10 ∧
    ((forecast_sales dfOneDay extNegative).getD default).lower_bound.getD 0 0 = -8 ∧
    ¬ bracketOK ((forecast_sales dfOneDay extNegative).getD default) :=
  ⟨by with_unfolding_all rfl, by with_unfolding_all rfl, by with_unfolding_all rfl,
   of_decide_eq_true (by with_unfolding_all rfl)⟩

/-- C4: on a frame with `Transaction` and `Item` but no timestamp column,
the temporal analyzer and the forecaster return their empty structures, and
the segmenter also returns the empty structure — `pd.qcut` raises
`Bin edges must be unique` on the constant placeholder recency, so the
documented recency-placeholder segmentation is never produced. -/
theorem C4_no_timestamp_degrade :
    analyze_time_patterns dfScenario = [] ∧
    (∀ ext, forecast_sales dfScenario ext = none) ∧
    segment_customers dfScenario = none := by
  refine ⟨by with_unfolding_all rfl, fun ext => ?_, by with_unfolding_all rfl⟩
  unfold forecast_sales
  exact if_neg (by decide)

/-- Counterexample for C5 as stated: the code reports the pandas sample
standard deviation (`ddof = 1`), not the population one — a one-row column
yields NaN rather than 0, and on `[120,150,135,145]` the squared reported
std is 175 while the squared population std is 525/4. -/
theorem C5_population_std_cex :
    (numericColStats [(120 : ℚ)]).std_sq ≠ some 0 ∧
    (numericColStats [120, 150, 135, 145]).std_sq = some 175 ∧
    popVariance [120, 150, 135, 145] = some (525 / 4) ∧
    (some (175 : ℚ) ≠ some (525 / 4 : ℚ)) := by
  refine ⟨?_, by with_unfolding_all rfl, by with_unfolding_all rfl, ?_⟩
  · rw [show (numericColStats [(120 : ℚ)]).std_sq = none by with_unfolding_all rfl]
    simp
  · simp only [ne_eq, Option.some.injEq]
    norm_num

/-- C5 (amended): the descriptive-statistics computer reports mean, median,
sample standard deviation (`ddof = 1`), min and max per numeric column; a
one-row column yields a NaN std; for the column `[120,150,135,145]` it
reports mean 137.5, median 140, min 120, max 150 and squared std 175. -/
theorem C5_descriptive_stats :
    statsNumeric ((generateStats dfSales extNone).getD []) =
      [("sales", ⟨some (275 / 2), some 140, some 175, some 120, some 150⟩)] ∧
    (numericColStats [(120 : ℚ)]).std_sq = none :=
  ⟨by with_unfolding_all rfl, by with_unfolding_all rfl⟩

/-- C8: on the scenario frame (`Transaction=[1,1,2,2]`, `Item=[A,B,A,B]`,
no timestamp) the association miner with `min_support = 1` returns exactly
`A → [(B,2)]` and `B → [(A,2)]`. -/
theorem C8_scenario_associations :
    analyze_product_associations dfScenario 1 =
      [(Cell.str "A", [(Cell.str "B", 2)]), (Cell.str "B", [(Cell.str "A", 2)])] := by
  with_unfolding_all rfl

/-- Counterexample for C9 as stated: a frame with a parseable off-hours
timestamp (hour 23) and a `Transaction` column but no `Item` column gets an
empty anomaly report — the off-hours check is skipped although its own
prerequisite column is present. -/
theorem C9_off_hours_not_independent_cex :
    detect_anomalies dfLateNoItem = [] ∧
    (parseTs "01-01-2023 23:00").map Ts.hour = some 23 ∧
    lateHour 23 = true :=
  ⟨by with_unfolding_all rfl, by with_unfolding_all rfl, by with_unfolding_all rfl⟩

/-- Counterexample for C7 as stated: with two categorical columns but zero
cleaned rows `df.empty` short-circuits and the matrix is empty, so no
diagonal entry equals 1.0. -/
theorem C7_empty_frame_cex :
    (catCols dfNoRows).length = 2 ∧
    generate_correlation_matrix dfNoRows = [] ∧
    mGet (generate_correlation_matrix dfNoRows) "X" "X" = none :=
  ⟨by with_unfolding_all rfl, by with_unfolding_all rfl, by with_unfolding_all rfl⟩

end PD

namespace PD

/-- C2: whenever the pipeline returns a statistics document, its top-level
keys are exactly the nine fixed keys, in insertion order — a key whose
prerequisite is missing holds an empty structure but is never absent. -/
theorem C2_nine_keys (df : DF) (ext : ExternalForecasters) {s : StatsDoc}
    (h : generateStats df ext = some s) : s.map Prod.fst = nineKeys := by
  unfold generateStats at h
  rcases hm : mapMO (fun c =>
      (mostCommon c.2).map (fun mc => (c.1, CatStats.mk (firstDedup c.2).length mc)))
      (catColsData df) with _ | cs
  · rw [hm] at h
    simp at h
  · rw [hm] at h
    simp only [Option.bind_eq_bind, Option.some_bind] at h
    injection h with h'
    rw [← h']
    rfl

/-- Witness for C2 at a concrete frame. -/
theorem C2_nine_keys_witness :
    (generateStats dfSales extNone).isSome ∧
    ((generateStats dfSales extNone).getD []).map Prod.fst = nineKeys := by
  have h : generateStats dfSales extNone =
      some ((generateStats dfSales extNone).getD []) := by with_unfolding_all rfl
  exact ⟨by rw [h]; rfl, C2_nine_keys dfSales extNone h⟩

/-- C3: whenever the external text-generation collaborator is unavailable
(missing credential) or raises, the insight composer returns the very
statistics document computed before the call, unchanged, paired with the
deterministic fallback narrative built from it — whose lines mention each
numeric column's average. -/
theorem C3_fallback_narrative (df : DF) (ext : ExternalForecasters) (collab : Collab)
    {stats : StatsDoc} (hs : generateStats df ext = some stats)
    (hc : collab = Collab.noKey ∨ collab = Collab.apiError) :
    generate_insights df ext collab =
      some ⟨stats, generate_basic_insights stats⟩ ∧
    ∀ p ∈ statsNumeric stats,
      ("- Average: " ++ fmtOpt2 p.2.mean) ∈ basicInsightLines stats := by
  constructor
  · unfold generate_insights
    rw [hs]
    rcases hc with rfl | rfl <;> rfl
  · intro p hp
    have hmem : ("- Average: " ++ fmtOpt2 p.2.mean) ∈ numericLines (statsNumeric stats) := by
      unfold numericLines
      refine List.mem_flatMap.mpr ⟨p, hp, ?_⟩
      simp
    unfold basicInsightLines
    exact List.mem_append_left _ (List.mem_append_left _ (List.mem_append_left _
      (List.mem_append_left _ (List.mem_append_left _ (List.mem_append_left _ hmem)))))

/-- Witness for C3: on a concrete document the failing collaborator yields
the unchanged statistics plus the fallback narrative, which mentions the
`sales` column's average 137.50. -/
theorem C3_fallback_witness :
    generate_insights dfSales extNone Collab.apiError =
      some ⟨statsSales, generate_basic_insights statsSales⟩ ∧
    ("- Average: " ++ fmtOpt2 (some (275 / 2))) ∈ basicInsightLines statsSales := by
  have h : generateStats dfSales extNone = some statsSales := by with_unfolding_all rfl
  have main := C3_fallback_narrative dfSales extNone Collab.apiError h (Or.inr rfl)
  refine ⟨main.1, ?_⟩
  have hp : ("sales",
      (⟨some (275 / 2), some 140, some 175, some 120, some 150⟩ : NumericStats)) ∈
      statsNumeric statsSales := by
    rw [show statsNumeric statsSales =
        [("sales", (⟨some (275 / 2), some 140, some 175, some 120, some 150⟩ : NumericStats))]
      by with_unfolding_all rfl]
    exact List.mem_singleton_self _
  exact main.2 _ hp

end PD

namespace PD

/- Segmentation facts (C6, C10). -/

theorem mkRows_length : ∀ (ks : List Cell) (rs fs : List ℚ) (ra rb : List ℕ),
    rs.length = ks.length → fs.length = ks.length → ra.length = ks.length →
    rb.length = ks.length → (mkRows ks rs fs ra rb).length = ks.length := by
  intro ks
  induction ks with
  | nil => intro rs fs ra rb h1 h2 h3 h4; rfl
  | cons k ks ih =>
    intro rs fs ra rb h1 h2 h3 h4
    rcases rs with _ | ⟨r, rs'⟩
    · simp at h1
    rcases fs with _ | ⟨f, fs'⟩
    · simp at h2
    rcases ra with _ | ⟨a, ra'⟩
    · simp at h3
    rcases rb with _ | ⟨b, rb'⟩
    · simp at h4
    simp only [mkRows, List.length_cons] at h1 h2 h3 h4 ⊢
    rw [ih rs' fs' ra' rb' (by omega) (by omega) (by omega) (by omega)]

theorem mkRows_segment : ∀ (ks : List Cell) (rs fs : List ℚ) (ra rb : List ℕ)
    (t : RfmRow), t ∈ mkRows ks rs fs ra rb →
    ∃ a ∈ ra, ∃ b ∈ rb, t.segment = segmentOf (toString a ++ toString b) := by
  intro ks
  induction ks with
  | nil => intro rs fs ra rb t ht; simp [mkRows] at ht
  | cons k ks ih =>
    intro rs fs ra rb t ht
    rcases rs with _ | ⟨r, rs'⟩
    · simp [mkRows] at ht
    rcases fs with _ | ⟨f, fs'⟩
    · simp [mkRows] at ht
    rcases ra with _ | ⟨a, ra'⟩
    · simp [mkRows] at ht
    rcases rb with _ | ⟨b, rb'⟩
    · simp [mkRows] at ht
    rw [mkRows] at ht
    rcases List.mem_cons.mp ht with rfl | hmem
    · exact ⟨a, by simp, b, by simp, rfl⟩
    · obtain ⟨a', ha', b', hb', hseg⟩ := ih rs' fs' ra' rb' t hmem
      exact ⟨a', List.mem_cons_of_mem _ ha', b', List.mem_cons_of_mem _ hb', hseg⟩

theorem segmentOf_mem_segNames (s : String) : segmentOf s ∈ segNames := by
  unfold segmentOf
  rcases hf : segTable.find? (fun kv => kv.2.contains s) with _ | kv
  · rw [hf]
    decide
  · rw [hf]
    exact List.mem_map_of_mem Prod.fst (List.mem_of_find?_eq_some hf)

theorem buildSegments_inv {keys : List Cell} {recencies freqs : List ℚ}
    {cs : CustomerSegments} (h : buildSegments keys recencies freqs = some cs) :
    ∃ rS fS, qcut5 recencies [5, 4, 3, 2, 1] = some rS ∧
      qcut5 freqs [1, 2, 3, 4, 5] = some fS ∧
      cs.segments = valueCounts ((mkRows keys recencies freqs rS fS).map (fun t => t.segment)) := by
  unfold buildSegments at h
  simp only [Option.bind_eq_bind] at h
  obtain ⟨rS, hrS, h2⟩ := Option.bind_eq_some.mp h
  obtain ⟨fS, hfS, h3⟩ := Option.bind_eq_some.mp h2
  refine ⟨rS, fS, hrS, hfS, ?_⟩
  injection h3 with h4
  rw [← h4]

theorem segment_customers_inv {df : DF} {cs : CustomerSegments}
    (h : segment_customers df = some cs) :
    ∃ recencies freqs : List ℚ,
      recencies.length = (sortedCells (transactionColumn df)).length ∧
      freqs.length = (sortedCells (transactionColumn df)).length ∧
      buildSegments (sortedCells (transactionColumn df)) recencies freqs = some cs := by
  unfold segment_customers at h
  split at h
  case isFalse => simp at h
  case isTrue hTI =>
    rcases htx : getCells df "Transaction" with _ | txns
    · rw [htx] at h
      simp at h
    · rw [htx] at h
      have htc : transactionColumn df = txns := by
        unfold transactionColumn
        rw [htx]
        rfl
      rw [htc]
      dsimp only at h
      split at h
      · rcases hpd : parsedDateTimes df with _ | parsed
        · rw [hpd] at h
          simp at h
        · rw [hpd] at h
          simp only [Option.bind_eq_bind] at h
          obtain ⟨today, h1, h2⟩ := Option.bind_eq_some.mp h
          obtain ⟨recencies, hrec, h3⟩ := Option.bind_eq_some.mp h2
          exact ⟨recencies, _, mapMO_length hrec, by simp, h3⟩
      · exact ⟨_, _, by simp, by simp, h⟩

theorem firstDedup_length_dedup [DecidableEq α] (l : List α) :
    (firstDedup l).length = l.dedup.length :=
  ((List.perm_ext_iff_of_nodup (firstDedup_nodup l) l.nodup_dedup).mpr
    (fun a => by rw [mem_firstDedup, List.mem_dedup])).length_eq

/-- C6: for every input on which the segmenter produces a non-empty result,
every transaction's score code is mapped (first matching table entry wins,
non-matching codes to Others) to one of the six fixed segment names, and
the per-segment counts sum to the number of distinct transaction
identifiers. -/
theorem C6_segment_partition (df : DF) {cs : CustomerSegments}
    (h : segment_customers df = some cs) :
    (∀ p ∈ cs.segments, p.1 ∈ segNames) ∧
    ((cs.segments.map Prod.snd).sum = (transactionColumn df).dedup.length) := by
  obtain ⟨rec, fr, hrl, hfl, hb⟩ := segment_customers_inv h
  obtain ⟨rS, fS, hrS, hfS, hseg⟩ := buildSegments_inv hb
  constructor
  · intro p hp
    rw [hseg] at hp
    obtain ⟨t, ht, hts⟩ := List.mem_map.mp (valueCounts_keys_mem hp)
    obtain ⟨a, _, b, _, hsegEq⟩ := mkRows_segment _ _ _ _ _ t ht
    rw [← hts, hsegEq]
    exact segmentOf_mem_segNames _
  · rw [hseg, valueCounts_sum, List.length_map]
    rw [mkRows_length _ _ _ _ _ hrl hfl
      (by rw [qcut5_length hrS, hrl]) (by rw [qcut5_length hfS, hfl])]
    unfold sortedCells sortedKeys
    rw [sortBy_length]
    exact firstDedup_length_dedup _

/-- Witness for C6 at a concrete five-transaction frame. -/
theorem C6_segment_partition_witness :
    (segment_customers dfFive).isSome ∧
    ((((segment_customers dfFive).getD default).segments.map Prod.snd).sum = 5) := by
  have h : segment_customers dfFive =
      some ((segment_customers dfFive).getD default) := by with_unfolding_all rfl
  have main := C6_segment_partition dfFive h
  refine ⟨by rw [h]; rfl, ?_⟩
  rw [main.2]
  with_unfolding_all rfl

/-- C10: the 'At Risk' lookup codes all contain the digit 0, which the 1–5
scores can never produce, so 'At Risk' never appears among the per-segment
counts. -/
theorem C10_no_at_risk (df : DF) {cs : CustomerSegments}
    (h : segment_customers df = some cs) :
    "At Risk" ∉ cs.segments.map Prod.fst := by
  obtain ⟨rec, fr, hrl, hfl, hb⟩ := segment_customers_inv h
  obtain ⟨rS, fS, hrS, hfS, hseg⟩ := buildSegments_inv hb
  intro hmem
  rw [hseg] at hmem
  obtain ⟨p, hp, hp1⟩ := List.mem_map.mp hmem
  have h1 := valueCounts_keys_mem hp
  rw [hp1] at h1
  obtain ⟨t, ht, hts⟩ := List.mem_map.mp h1
  obtain ⟨a, ha, b, hbb, hsegEq⟩ := mkRows_segment _ _ _ _ _ t ht
  have haL : a ∈ [5, 4, 3, 2, 1] := qcut5_mem (by decide) hrS a ha
  have hbL : b ∈ [1, 2, 3, 4, 5] := qcut5_mem (by decide) hfS b hbb
  have hne : segmentOf (toString a ++ toString b) ≠ "At Risk" := by
    fin_cases haL <;> fin_cases hbL <;> decide
  exact hne (by rw [← hsegEq, hts])

/-- Witness for C10 at a concrete five-transaction frame. -/
theorem C10_no_at_risk_witness :
    (segment_customers dfFive).isSome ∧
    "At Risk" ∉ ((segment_customers dfFive).getD default).segments.map Prod.fst := by
  have h : segment_customers dfFive =
      some ((segment_customers dfFive).getD default) := by with_unfolding_all rfl
  exact ⟨by rw [h]; rfl, C10_no_at_risk dfFive h⟩

end PD

namespace PD

/- Anomaly-check key characterisations (C9). -/

theorem largePart_key_iff (df : DF) :
    "large_transactions" ∈ (largePart df).map Prod.fst ↔ largeList df ≠ [] := by
  unfold largePart
  split_ifs with h <;> simp_all [List.isEmpty_iff]

theorem largePart_no_other (df : DF) (k : String) (hk : k ≠ "large_transactions") :
    k ∉ (largePart df).map Prod.fst := by
  unfold largePart
  split_ifs <;> simp_all

theorem rarePart_key_iff (df : DF) :
    "rare_items" ∈ (rarePart df).map Prod.fst ↔ rareList df ≠ [] := by
  unfold rarePart
  split_ifs with h <;> simp_all [List.isEmpty_iff]

theorem rarePart_no_other (df : DF) (k : String) (hk : k ≠ "rare_items") :
    k ∉ (rarePart df).map Prod.fst := by
  unfold rarePart
  split_ifs <;> simp_all

theorem hoursPart_key_iff (df : DF) :
    "unusual_hours" ∈ (hoursPart df).map Prod.fst ↔
      ("date_time" ∈ colNames df ∧ "datetime" ∉ colNames df ∧
        unusualHourCounts df ≠ []) := by
  unfold hoursPart
  split_ifs with h1 h2 <;> simp_all [List.isEmpty_iff]

theorem hoursPart_no_other (df : DF) (k : String) (hk : k ≠ "unusual_hours") :
    k ∉ (hoursPart df).map Prod.fst := by
  unfold hoursPart
  split_ifs <;> simp_all

/-- C9 (amended): all three anomaly checks run only when both `Transaction`
and `Item` are present; given that, they are independent — the report is
the concatenation of the three checks, each key appears exactly when its
own data condition holds (off-hours additionally requires the absence of a
raw `datetime` column), and when the off-hours condition holds its entry
reports the late-hour counts. -/
theorem C9_anomaly_checks (df : DF)
    (hT : "Transaction" ∈ colNames df) (hI : "Item" ∈ colNames df) :
    detect_anomalies df = largePart df ++ rarePart df ++ hoursPart df ∧
    (("large_transactions" ∈ (detect_anomalies df).map Prod.fst) ↔ largeList df ≠ []) ∧
    (("rare_items" ∈ (detect_anomalies df).map Prod.fst) ↔ rareList df ≠ []) ∧
    (("unusual_hours" ∈ (detect_anomalies df).map Prod.fst) ↔
      ("date_time" ∈ colNames df ∧ "datetime" ∉ colNames df ∧
        unusualHourCounts df ≠ [])) ∧
    (("date_time" ∈ colNames df ∧ "datetime" ∉ colNames df ∧
        unusualHourCounts df ≠ []) →
      hoursPart df = [("unusual_hours",
        Anom.hours "Transactions during unusual hours (10PM-6AM)"
          (unusualHourCounts df))]) := by
  have hcat : detect_anomalies df = largePart df ++ rarePart df ++ hoursPart df := by
    unfold detect_anomalies
    rw [if_pos ⟨hT, hI⟩]
  refine ⟨hcat, ?_, ?_, ?_, ?_⟩
  · rw [hcat]
    simp only [List.map_append, List.mem_append]
    rw [← largePart_key_iff df]
    have h2 := rarePart_no_other df "large_transactions" (by decide)
    have h3 := hoursPart_no_other df "large_transactions" (by decide)
    tauto
  · rw [hcat]
    simp only [List.map_append, List.mem_append]
    rw [← rarePart_key_iff df]
    have h2 := largePart_no_other df "rare_items" (by decide)
    have h3 := hoursPart_no_other df "rare_items" (by decide)
    tauto
  · rw [hcat]
    simp only [List.map_append, List.mem_append]
    rw [← hoursPart_key_iff df]
    have h2 := largePart_no_other df "unusual_hours" (by decide)
    have h3 := rarePart_no_other df "unusual_hours" (by decide)
    tauto
  · rintro ⟨h1, h2, h3⟩
    unfold hoursPart
    rw [if_pos ⟨h1, h2⟩, if_neg (by simp [List.isEmpty_iff, h3])]

/-- Witness for C9 at a concrete frame with `Transaction` and `Item`. -/
theorem C9_anomaly_checks_witness :
    detect_anomalies dfScenario =
      largePart dfScenario ++ rarePart dfScenario ++ hoursPart dfScenario ∧
    "unusual_hours" ∉ (detect_anomalies dfScenario).map Prod.fst := by
  have main := C9_anomaly_checks dfScenario (by decide) (by decide)
  refine ⟨main.1, ?_⟩
  rw [main.2.2.2.1]
  rintro ⟨hd, _⟩
  revert hd
  decide

end PD

namespace PD

/- Characterisation of the Cramér's V matrix build (C7). -/

theorem idxOfS_lt_of_mem {l : List String} {x : String} (h : x ∈ l) :
    idxOfS l x < l.length := by
  induction l with
  | nil => simp at h
  | cons a t ih =>
    unfold idxOfS
    by_cases hax : a = x
    · rw [if_pos hax]
      simp
    · rw [if_neg hax]
      have hxt : x ∈ t := by
        rcases List.mem_cons.mp h with h1 | h1
        · exact absurd h1.symm hax
        · exact h1
      simpa using ih hxt

theorem getD_idxOfS {l : List String} {x : String} (h : x ∈ l) (d : String) :
    l.getD (idxOfS l x) d = x := by
  induction l with
  | nil => simp at h
  | cons a t ih =>
    unfold idxOfS
    by_cases hax : a = x
    · rw [if_pos hax]
      simpa using hax
    · rw [if_neg hax]
      have hxt : x ∈ t := by
        rcases List.mem_cons.mp h with h1 | h1
        · exact absurd h1.symm hax
        · exact h1
      simpa using ih hxt

theorem idxOfS_cons (a : String) (t : List String) (x : String) :
    idxOfS (a :: t) x = if a = x then 0 else idxOfS t x + 1 := rfl

theorem idxOfS_append_of_not_mem {pre : List String} (rest : List String) {x : String}
    (hx : x ∉ pre) : idxOfS (pre ++ rest) x = pre.length + idxOfS rest x := by
  induction pre with
  | nil => simp
  | cons a t ih =>
    have hax : ¬(a = x) := fun h => hx (by rw [h]; exact List.mem_cons_self _ _)
    rw [List.cons_append, idxOfS_cons, if_neg hax,
      ih (fun ht => hx (List.mem_cons_of_mem _ ht)), List.length_cons]
    omega

theorem idxOfS_append_of_mem {pre : List String} (rest : List String) {x : String}
    (hx : x ∈ pre) : idxOfS (pre ++ rest) x < pre.length := by
  induction pre with
  | nil => simp at hx
  | cons a t ih =>
    simp only [List.cons_append]
    unfold idxOfS
    by_cases hax : a = x
    · rw [if_pos hax]
      simp
    · rw [if_neg hax]
      have hxt : x ∈ t := by
        rcases List.mem_cons.mp hx with h1 | h1
        · exact absurd h1.symm hax
        · exact h1
      simpa using ih hxt

theorem eVal_self (df : DF) (sel : List String) (c : String) :
    eVal df sel c c = some 1 := by
  unfold eVal
  rw [if_pos rfl]

theorem eVal_symm (df : DF) {sel : List String} {a b : String}
    (ha : a ∈ sel) (hb : b ∈ sel) : eVal df sel a b = eVal df sel b a := by
  by_cases hab : a = b
  · rw [hab]
  · have hba : ¬(b = a) := fun h => hab h.symm
    have hne : idxOfS sel a ≠ idxOfS sel b := by
      intro he
      apply hab
      have h1 := getD_idxOfS ha ""
      have h2 := getD_idxOfS hb ""
      rw [he] at h1
      exact h1.symm.trans h2
    unfold eVal
    rcases lt_trichotomy (idxOfS sel a) (idxOfS sel b) with hlt | heq | hgt
    · rw [if_neg hab, if_neg hba,
        if_neg (show ¬ idxOfS sel b < idxOfS sel a by omega), if_pos hlt]
    · exact absurd heq hne
    · rw [if_neg hab, if_neg hba, if_pos hgt,
        if_neg (show ¬ idxOfS sel a < idxOfS sel b by omega)]

theorem find?_map_key {β : Type} (f : String → β) (k : String) :
    ∀ l : List String, ((l.map (fun a => (a, f a))).find? (fun p => p.1 = k)) =
      if k ∈ l then some (k, f k) else none := by
  intro l
  induction l with
  | nil => simp
  | cons a t ih =>
    simp only [List.map_cons]
    by_cases hak : a = k
    · subst hak
      rw [List.find?_cons_of_pos _ (by simp), if_pos (List.mem_cons_self _ _)]
    · rw [List.find?_cons_of_neg _ (by simp [hak]), ih]
      by_cases hkt : k ∈ t
      · rw [if_pos hkt, if_pos (List.mem_cons_of_mem _ hkt)]
      · rw [if_neg hkt,
          if_neg (fun hh => (List.mem_cons.mp hh).elim (fun h => hak h.symm) hkt)]

theorem mGet_map (df : DF) (sel : List String) (L : List String) (a b : String) :
    mGet (L.map (rowFun df sel)) a b =
      if a ∈ L then (if b ∈ sel then some (eVal df sel a b) else none) else none := by
  unfold mGet
  have hL : L.map (rowFun df sel) =
      L.map (fun c1 => (c1, sel.map (fun c2 => (c2, eVal df sel c1 c2)))) := rfl
  rw [hL, find?_map_key (fun c1 => sel.map (fun c2 => (c2, eVal df sel c1 c2))) a L]
  by_cases haL : a ∈ L
  · rw [if_pos haL, if_pos haL]
    simp only [Option.some_bind]
    rw [find?_map_key (fun c2 => eVal df sel a c2) b sel]
    by_cases hbs : b ∈ sel
    · rw [if_pos hbs, if_pos hbs]
      rfl
    · rw [if_neg hbs, if_neg hbs]
      rfl
  · rw [if_neg haL, if_neg haL]
    rfl

theorem buildAll (df : DF) (sel : List String) (hnd : sel.Nodup) :
    ∀ (rest pre : List String), sel = pre ++ rest →
      List.foldl (fun acc c1 => acc ++ [(c1, buildRow df acc c1 sel)])
        (pre.map (rowFun df sel)) rest = sel.map (rowFun df sel) := by
  intro rest
  induction rest with
  | nil =>
    intro pre h
    rw [List.foldl_nil, h, List.append_nil]
  | cons c1 rest' ih =>
    intro pre h
    rw [List.foldl_cons]
    have hndh : (pre ++ c1 :: rest').Nodup := h ▸ hnd
    have hc1pre : c1 ∉ pre := fun hc =>
      (List.disjoint_of_nodup_append hndh) hc (List.mem_cons_self _ _)
    have hc1sel : c1 ∈ sel := by
      rw [h]
      exact List.mem_append_right _ (List.mem_cons_self _ _)
    have hrow : buildRow df (pre.map (rowFun df sel)) c1 sel =
        sel.map (fun c2 => (c2, eVal df sel c1 c2)) := by
      unfold buildRow
      apply List.map_congr_left
      intro c2 hc2
      by_cases h12 : c1 = c2
      · rw [if_pos h12]
        unfold eVal
        rw [if_pos h12]
      · rw [if_neg h12]
        rw [mGet_map df sel pre c2 c1]
        by_cases hc2pre : c2 ∈ pre
        · rw [if_pos hc2pre, if_pos hc1sel]
          exact congrArg (fun v => (c2, v))
            (eVal_symm df (by rw [h]; exact List.mem_append_left _ hc2pre) hc1sel)
        · rw [if_neg hc2pre]
          have hi1 : idxOfS sel c1 = pre.length := by
            rw [h, idxOfS_append_of_not_mem _ hc1pre, idxOfS_cons, if_pos rfl]
            omega
          have hi2 : pre.length < idxOfS sel c2 := by
            rw [h, idxOfS_append_of_not_mem _ hc2pre, idxOfS_cons,
              if_neg (fun hh => h12 hh)]
            omega
          have hcv : cellValue df c1 c2 = eVal df sel c1 c2 := by
            unfold eVal
            rw [if_neg h12,
              if_neg (show ¬ idxOfS sel c2 < idxOfS sel c1 by omega)]
          exact congrArg (fun v => (c2, v)) hcv
    rw [hrow]
    have hstep : pre.map (rowFun df sel) ++
        [(c1, sel.map (fun c2 => (c2, eVal df sel c1 c2)))] =
        (pre ++ [c1]).map (rowFun df sel) := by
      rw [List.map_append]
      rfl
    rw [hstep]
    exact ih (pre ++ [c1]) (by rw [h, List.append_assoc]; rfl)

theorem cramerCell_error_iff (pairs : List (String × String)) :
    cramerCell pairs = Except.error () ↔
      ((sortedKeys strBefore (pairs.map Prod.fst)).any (fun rv =>
        (sortedKeys strBefore (pairs.map Prod.snd)).any (fun kv =>
          (pairs.filter (fun p => p.1 = rv)).length *
            (pairs.filter (fun p => p.2 = kv)).length = 0))) = true := by
  unfold cramerCell
  dsimp only
  split
  · rename_i hc
    exact iff_of_true rfl hc
  · rename_i hc
    refine iff_of_false ?_ hc
    intro h
    split at h
    · exact Except.noConfusion h
    · split at h
      · exact Except.noConfusion h
      · exact Except.noConfusion h

theorem cramerCell_error_swap (pairs : List (String × String)) :
    cramerCell (pairs.map Prod.swap) = Except.error () ↔
      cramerCell pairs = Except.error () := by
  rw [cramerCell_error_iff, cramerCell_error_iff]
  have hfst : (pairs.map Prod.swap).map Prod.fst = pairs.map Prod.snd := by
    rw [List.map_map]
    rfl
  have hsnd : (pairs.map Prod.swap).map Prod.snd = pairs.map Prod.fst := by
    rw [List.map_map]
    rfl
  rw [hfst, hsnd]
  have hf1 : ∀ rv : String,
      ((pairs.map Prod.swap).filter (fun p => p.1 = rv)).length =
        (pairs.filter (fun p => p.2 = rv)).length := by
    intro rv
    rw [List.filter_map, List.length_map]
    rfl
  have hf2 : ∀ kv : String,
      ((pairs.map Prod.swap).filter (fun p => p.2 = kv)).length =
        (pairs.filter (fun p => p.1 = kv)).length := by
    intro kv
    rw [List.filter_map, List.length_map]
    rfl
  simp only [List.any_eq_true, decide_eq_true_eq]
  constructor
  · rintro ⟨rv, hrv, kv, hkv, h⟩
    rw [hf1 rv, hf2 kv] at h
    refine ⟨kv, hkv, rv, hrv, ?_⟩
    rw [mul_comm]
    exact h
  · rintro ⟨rv, hrv, kv, hkv, h⟩
    refine ⟨kv, hkv, rv, hrv, ?_⟩
    rw [hf1 kv, hf2 rv, mul_comm]
    exact h

theorem cramerPairE_error_symm {df : DF} {a b : String}
    (h : cramerPairE df a b = Except.error ()) :
    cramerPairE df b a = Except.error () := by
  unfold cramerPairE at h ⊢
  cases hga : getStrs df a with
  | none =>
    cases hgb : getStrs df b with
    | none => rfl
    | some ys => rfl
  | some xs =>
    cases hgb : getStrs df b with
    | none => rfl
    | some ys =>
      rw [hga, hgb] at h
      show cramerCell (ys.zip xs) = Except.error ()
      rw [← List.zip_swap]
      exact (cramerCell_error_swap (xs.zip ys)).mpr h

theorem catCols_sublist (df : DF) : (catCols df).Sublist (colNames df) := by
  unfold catCols catColsData colNames
  induction df with
  | nil => exact List.Sublist.refl _
  | cons c rest ih =>
    rw [List.filterMap_cons, List.map_cons]
    cases hc : c.data with
    | nums l => exact List.Sublist.cons _ ih
    | strs l => exact List.Sublist.cons₂ _ ih

theorem catCols_length_le (df : DF) :
    (catCols df).length ≤ (colNames df).length :=
  (catCols_sublist df).length_le

theorem gcm_spec (df : DF) (h2 : 2 ≤ (catCols df).length)
    (hne : ¬ dfEmpty df) (hnd : (colNames df).Nodup) :
    generate_correlation_matrix df =
      ((catCols df).take 4).map (rowFun df ((catCols df).take 4)) := by
  have hA : ¬ (dfEmpty df ∨ (colNames df).length < 2) := by
    push_neg
    exact ⟨hne, le_trans h2 (catCols_length_le df)⟩
  have hB : ¬ ((catCols df).length < 2) := by omega
  unfold generate_correlation_matrix
  rw [if_neg hA]
  dsimp only
  rw [if_neg hB]
  exact buildAll df _
    (List.Nodup.sublist (List.take_sublist 4 _)
      (List.Nodup.sublist (catCols_sublist df) hnd)) _ [] rfl


/-- C7 (amended): for every cleaned row-set with at least one row, distinct
column names and at least two categorical columns, the categorical
correlation engine computes Cramér's V only over the first at-most-4
categorical columns in source order (the matrix's row keys are exactly that
selection), every diagonal entry equals 1.0, the matrix is symmetric
(matrix[a][b] = matrix[b][a] for every pair of selected columns), and any
per-pair computation failure yields 0.0 for that off-diagonal cell without
aborting the rest of the matrix. -/
theorem C7_cramer_matrix (df : DF) (h2 : 2 ≤ (catCols df).length)
    (hne : ¬ dfEmpty df) (hnd : (colNames df).Nodup) :
    (generate_correlation_matrix df).map Prod.fst = (catCols df).take 4 ∧
    (∀ a ∈ (catCols df).take 4,
      mGet (generate_correlation_matrix df) a a = some (some 1)) ∧
    (∀ a ∈ (catCols df).take 4, ∀ b ∈ (catCols df).take 4,
      mGet (generate_correlation_matrix df) a b =
        mGet (generate_correlation_matrix df) b a) ∧
    (∀ a ∈ (catCols df).take 4, ∀ b ∈ (catCols df).take 4, a ≠ b →
      cramerPairE df a b = Except.error () →
      mGet (generate_correlation_matrix df) a b = some (some 0)) := by
  have hg := gcm_spec df h2 hne hnd
  refine ⟨?_, ?_, ?_, ?_⟩
  · rw [hg, List.map_map]
    have hfid : (Prod.fst ∘ rowFun df ((catCols df).take 4)) =
        fun c : String => c := rfl
    rw [hfid]
    simp
  · intro a ha
    rw [hg, mGet_map, if_pos ha, if_pos ha, eVal_self]
  · intro a ha b hb
    rw [hg, mGet_map, mGet_map, if_pos ha, if_pos hb, if_pos hb, if_pos ha,
      eVal_symm df ha hb]
  · intro a ha b hb hab herr
    rw [hg, mGet_map, if_pos ha, if_pos hb]
    congr 1
    unfold eVal
    rw [if_neg hab]
    by_cases hlt :
        idxOfS ((catCols df).take 4) b < idxOfS ((catCols df).take 4) a
    · rw [if_pos hlt]
      unfold cellValue
      rw [cramerPairE_error_symm herr]
    · rw [if_neg hlt]
      unfold cellValue
      rw [herr]

/-- C7 witness: on the concrete frame with categorical columns X and Y the
amended matrix properties hold. -/
theorem C7_cramer_matrix_witness :
    (generate_correlation_matrix dfTwoCats).map Prod.fst =
        (catCols dfTwoCats).take 4 ∧
    (∀ a ∈ (catCols dfTwoCats).take 4,
      mGet (generate_correlation_matrix dfTwoCats) a a = some (some 1)) ∧
    (∀ a ∈ (catCols dfTwoCats).take 4, ∀ b ∈ (catCols dfTwoCats).take 4,
      mGet (generate_correlation_matrix dfTwoCats) a b =
        mGet (generate_correlation_matrix dfTwoCats) b a) ∧
    (∀ a ∈ (catCols dfTwoCats).take 4, ∀ b ∈ (catCols dfTwoCats).take 4,
      a ≠ b → cramerPairE dfTwoCats a b = Except.error () →
      mGet (generate_correlation_matrix dfTwoCats) a b = some (some 0)) :=
  C7_cramer_matrix dfTwoCats (of_decide_eq_true (by with_unfolding_all rfl))
    (of_decide_eq_true (by with_unfolding_all rfl))
    (of_decide_eq_true (by with_unfolding_all rfl))

end PD
